import Mathlib

/-!
# Turn synchronisation of devilutionX (`Source/nthread.cpp`)

A shallow embedding of the turn exchange code of `Source/nthread.cpp`, and of
the plural forms of `Source/utils/language.cpp`:

* the globals of the file are the fields of `NState`;
* every call into another module (the session transport `SNet*`, `SDL_*`, the
  simulation layer) is answered by an explicit environment record and is
  recorded, in program order, as an `Event` of the trace;
* `uint32_t` values are natural numbers reduced modulo `2^32` where the code can
  overflow, `BYTE` values are reduced modulo `2^8`, `char` and `int` values are
  integers wrapped to the signed 8-bit and 32-bit ranges;
* the loop of `nthread_send_and_recv_turn` is a total function (its guard gives
  the termination measure); the doubling loop of `nthread_start`, which need not
  terminate, takes fuel, and `nthread_start` reports a division by zero or a
  loop that is still running as a `Fault`;
* `app_fatal` ends the process: a run that reaches it has no return value;
* the embedding is sequential: it follows one thread through a function and
  records the calls on the critical section, on `CreateThread` and on
  `SDL_WaitThread` without giving them a blocking behaviour;
* the `float` progress fraction is an exact rational number;
* C strings are lists of characters, and the C library functions that
  `language.cpp` calls are given by their standard behaviour.

The constants `STORM_ERROR_*` and `MAX_PLRS` are defined in headers outside this
development and are parameters of the functions that use them.
-/

namespace devilution

/-! ## Machine integers -/

/-- Conversion of an integer to `uint32_t`: reduction modulo `2^32`. -/
def toUint32 (x : Int) : Nat := (x % 4294967296).toNat

/-- Conversion of an integer to `BYTE` (`unsigned char`): reduction modulo `2^8`. -/
def toByte (x : Nat) : Nat := x % 256

/-- Conversion of an integer to `char`, taken as a signed 8-bit value
(two's complement wrap-around into `-128 .. 127`). -/
def toChar (x : Int) : Int := (x + 128) % 256 - 128

/-- Conversion of an integer to `int`: two's complement wrap-around into
`-2^31 .. 2^31 - 1`. -/
def toInt32 (x : Int) : Int := (x + 2147483648) % 4294967296 - 2147483648

/-! ## Constants of headers that are not part of the sources -/

/-- The transport error codes `STORM_ERROR_*` that `nthread.cpp` compares
against. Their numeric values are defined in `storm/storm.h`, which is not
among the sources, so they are parameters of the embedding. -/
structure StormCodes where
  STORM_ERROR_GAME_TERMINATED : Nat
  STORM_ERROR_INVALID_PLAYER : Nat
  STORM_ERROR_NO_MESSAGES_WAITING : Nat
  STORM_ERROR_NOT_IN_GAME : Nat
  deriving DecidableEq, Repr

/-- The codes that `nthread_terminate_game` tells apart are different error
codes where the order of its tests matters: "invalid player" is neither
"game terminated" nor "not in game". -/
def StormCodes.Distinct (codes : StormCodes) : Prop :=
  codes.STORM_ERROR_INVALID_PLAYER ≠ codes.STORM_ERROR_GAME_TERMINATED ∧
  codes.STORM_ERROR_INVALID_PLAYER ≠ codes.STORM_ERROR_NOT_IN_GAME

instance (codes : StormCodes) : Decidable codes.Distinct := by
  unfold StormCodes.Distinct; exact inferInstance

/-- A concrete assignment of error codes (the values Storm uses), for
evaluating the embedding on concrete inputs. -/
def stormCodes : StormCodes where
  STORM_ERROR_GAME_TERMINATED := 0x85100069
  STORM_ERROR_INVALID_PLAYER := 0x8510006a
  STORM_ERROR_NO_MESSAGES_WAITING := 0x8510006b
  STORM_ERROR_NOT_IN_GAME := 0x85100070

/-! ## State and observable events -/

/-- The globals of `nthread.cpp` (lines 15-35) together with the globals of
other modules that its functions read or write (`gbGameDestroyed`,
`gbIsMultiplayer`, `gnTickDelay`). The message tables `glpMsgTbl`,
`gdwMsgLenTbl` are only passed on to the transport and are not modelled. -/
structure NState where
  /-- Field `BYTE sgbNetUpdateRate`. -/
  sgbNetUpdateRate : Nat := 0
  /-- Field `uint32_t gdwTurnsInTransit`. -/
  gdwTurnsInTransit : Nat := 0
  /-- Field `uint32_t gdwLargestMsgSize`. -/
  gdwLargestMsgSize : Nat := 0
  /-- Field `uint32_t gdwNormalMsgSize`. -/
  gdwNormalMsgSize : Nat := 0
  /-- Field `DWORD gdwDeltaBytesSec`. -/
  gdwDeltaBytesSec : Nat := 0
  /-- Field `bool nthread_should_run`. -/
  nthread_should_run : Bool := false
  /-- Field `SDL_threadID glpNThreadId`. -/
  glpNThreadId : Nat := 0
  /-- Field `char sgbSyncCountdown`. -/
  sgbSyncCountdown : Int := 0
  /-- Field `uint32_t turn_upper_bit`. -/
  turn_upper_bit : Nat := 0
  /-- Field `bool sgbTicsOutOfSync`. -/
  sgbTicsOutOfSync : Bool := false
  /-- Field `char sgbPacketCountdown`. -/
  sgbPacketCountdown : Int := 0
  /-- Field `bool sgbThreadIsRunning`. -/
  sgbThreadIsRunning : Bool := false
  /-- Field `int last_tick`. -/
  last_tick : Int := 0
  /-- Whether `SDL_Thread *sghThread` is a non-null handle. -/
  sghThread : Bool := false
  /-- Global `gbGameDestroyed` of the multiplayer layer. -/
  gbGameDestroyed : Bool := false
  /-- Global `gbIsMultiplayer`. -/
  gbIsMultiplayer : Bool := false
  /-- Global `int gnTickDelay`, the tick delay in milliseconds. -/
  gnTickDelay : Int := 50
  /-- Field `float gfProgressToNextGameTick`, held as an exact rational. -/
  gfProgressToNextGameTick : Rat := 0
  deriving DecidableEq, Repr

/-- The calls that the properties below observe, in the order the code makes
them: calls into other modules and entries of `nthread_terminate_game`. -/
inductive Event where
  /-- Entry of `nthread_terminate_game(pszFcn)`. -/
  | nthread_terminate_game (pszFcn : String)
  /-- Call of `SNetGetTurnsInTransit`. -/
  | SNetGetTurnsInTransit
  /-- Call of `SNetSendTurn` with the encoded 32-bit turn. -/
  | SNetSendTurn (turn : Nat)
  /-- Call of `SNetReceiveTurns`. -/
  | SNetReceiveTurns
  /-- Call of `SNetGetProviderCaps`. -/
  | SNetGetProviderCaps
  /-- Call of `multi_msg_countdown`, the "turns received" notification. -/
  | multi_msg_countdown
  /-- Call of `sgMemCrit.Enter()`. -/
  | sgMemCrit_Enter
  /-- Call of `sgMemCrit.Leave()`. -/
  | sgMemCrit_Leave
  /-- Call of `CreateThread(NthreadHandler, &glpNThreadId)`. -/
  | CreateThread
  /-- Call of `app_fatal` with the formatted message; the process ends here. -/
  | app_fatal (msg : String)
  /-- Call of `SDL_WaitThread(sghThread, nullptr)`. -/
  | SDL_WaitThread
  deriving DecidableEq, Repr

/-- The result of running a function of `nthread.cpp`: the globals afterwards,
the outside calls it made, and the value it returned. `value = none` means that
the function did not return because `app_fatal` ended the process. -/
structure Run (α : Type) where
  state : NState
  trace : List Event
  value : Option α
  deriving Repr

/-- Modelled from the spec: `app_fatal` (defined in `appfat.cpp`, which is not
among the sources; `test/appfat_test.cpp` expects it to exit the process)
"immediately halts the process with a diagnostic message". The call is
recorded with its message and nothing after it is executed. -/
def app_fatal {α : Type} (s : NState) (msg : String) : Run α :=
  { state := s, trace := [Event.app_fatal msg], value := none }

/-- The message that the format `"%s:\n%s"` produces for two strings. -/
def fmt_fcn_error (pszFcn err : String) : String := pszFcn ++ ":\n" ++ err

/-! ## `nthread_terminate_game` (lines 63-74) -/

/-- Function `nthread_terminate_game(pszFcn)`. `sErr` is the value of
`SErrGetLastError()` and `sdlError` the string of `SDL_GetError()`. -/
def nthread_terminate_game (codes : StormCodes) (s : NState) (pszFcn : String)
    (sErr : Nat) (sdlError : String) : Run Unit :=
  if sErr = codes.STORM_ERROR_INVALID_PLAYER then
    { state := s, trace := [Event.nthread_terminate_game pszFcn], value := some () }
  else if sErr ≠ codes.STORM_ERROR_GAME_TERMINATED ∧ sErr ≠ codes.STORM_ERROR_NOT_IN_GAME then
    let r : Run Unit := app_fatal s (fmt_fcn_error pszFcn sdlError)
    { r with trace := Event.nthread_terminate_game pszFcn :: r.trace }
  else
    { state := { s with gbGameDestroyed := true },
      trace := [Event.nthread_terminate_game pszFcn], value := some () }

/-! ## `nthread_send_and_recv_turn` (lines 76-99) -/

/-- What the transport answers during one call of `nthread_send_and_recv_turn`. -/
structure SendEnv where
  /-- Answer of `SNetGetTurnsInTransit`: `none` when the call fails, else the
  number of turns in transit. -/
  turnsInTransit : Option Nat
  /-- Whether the `i`-th call of `SNetSendTurn` (counted from 0 within this
  call) succeeds. -/
  sendOk : Nat → Bool
  /-- Value of `SErrGetLastError()` after a failed transport call. -/
  lastError : Nat
  /-- String of `SDL_GetError()` after a failed transport call. -/
  sdlError : String

/-- Lines 94-96: `curTurn += turnDelta; if (curTurn >= 0x7FFFFFFF) curTurn &= 0xFFFF;`
with `uint32_t curTurn` and `int turnDelta`. -/
def advance_turn (curTurn : Nat) (turnDelta : Int) : Nat :=
  let curTurn1 := toUint32 ((curTurn : Int) + turnDelta)
  if curTurn1 ≥ 0x7FFFFFFF then curTurn1 &&& 0xFFFF else curTurn1

/-- Line 85: `turn_upper_bit | (curTurn & 0x7FFFFFFF)`. -/
def encode_turn (turn_upper_bit curTurn : Nat) : Nat :=
  turn_upper_bit ||| (curTurn &&& 0x7FFFFFFF)

/-- The `while` loop of lines 83-97, entered with the current values of the
locals `curTurnsInTransit` and `curTurn`; `i` counts the `SNetSendTurn` calls
made so far. Inside the loop `curTurnsInTransit < gdwTurnsInTransit`, so the
post-increment does not overflow; after the last test the incremented value
is not read any more. -/
def send_loop (codes : StormCodes) (env : SendEnv) (turnDelta : Int)
    (s : NState) (curTurnsInTransit curTurn i : Nat) : Run Nat :=
  if curTurnsInTransit < s.gdwTurnsInTransit then
    let turn := encode_turn s.turn_upper_bit curTurn
    let s1 := { s with turn_upper_bit := 0 }
    if env.sendOk i then
      let r := send_loop codes env turnDelta s1 (curTurnsInTransit + 1)
        (advance_turn curTurn turnDelta) (i + 1)
      { r with trace := Event.SNetSendTurn turn :: r.trace }
    else
      let t := nthread_terminate_game codes s1 "SNetSendTurn" env.lastError env.sdlError
      { state := t.state, trace := Event.SNetSendTurn turn :: t.trace,
        value := t.value.map (fun _ => 0) }
  else
    { state := s, trace := [], value := some curTurn }
termination_by s.gdwTurnsInTransit - curTurnsInTransit
decreasing_by omega

/-- Function `nthread_send_and_recv_turn(curTurn, turnDelta)`. -/
def nthread_send_and_recv_turn (codes : StormCodes) (s : NState) (env : SendEnv)
    (curTurn : Nat) (turnDelta : Int) : Run Nat :=
  match env.turnsInTransit with
  | none =>
    let t := nthread_terminate_game codes s "SNetGetTurnsInTransit" env.lastError env.sdlError
    { state := t.state, trace := Event.SNetGetTurnsInTransit :: t.trace,
      value := t.value.map (fun _ => 0) }
  | some curTurnsInTransit =>
    let r := send_loop codes env turnDelta s curTurnsInTransit curTurn 0
    { r with trace := Event.SNetGetTurnsInTransit :: r.trace }

/-! ## `nthread_recv_turns` (lines 101-136) -/

/-- What the outside answers during one call of `nthread_recv_turns`. -/
structure RecvEnv where
  /-- Whether `SNetReceiveTurns` succeeds. -/
  receiveOk : Bool
  /-- Value of `SErrGetLastError()` after a failed receive. -/
  lastError : Nat
  /-- String of `SDL_GetError()` after a failed receive. -/
  sdlError : String
  /-- Value of `SDL_GetTicks()`. -/
  ticks : Nat

/-- Function `nthread_recv_turns(pfSendAsync)`. The argument is `none` for a
null pointer and otherwise the value the pointer refers to; the returned pair
is the `bool` result and the value behind the pointer afterwards. The new
values of the globals are named like the globals and written back in one
record update on each path. -/
def nthread_recv_turns (codes : StormCodes) (s : NState) (env : RecvEnv)
    (pfSendAsync : Option Bool) : Run (Bool × Option Bool) :=
  let pf := pfSendAsync.map (fun _ => false)
  let sgbPacketCountdown := toChar (s.sgbPacketCountdown - 1)
  if sgbPacketCountdown > (0 : Int) then
    { state := { s with sgbPacketCountdown := sgbPacketCountdown,
                        last_tick := toInt32 (s.last_tick + s.gnTickDelay) },
      trace := [], value := some (true, pf) }
  else
    let sgbSyncCountdown := toChar (s.sgbSyncCountdown - 1)
    let sgbPacketCountdown := toChar s.sgbNetUpdateRate
    if sgbSyncCountdown ≠ (0 : Int) then
      { state := { s with sgbSyncCountdown := sgbSyncCountdown,
                          sgbPacketCountdown := sgbPacketCountdown,
                          last_tick := toInt32 (s.last_tick + s.gnTickDelay) },
        trace := [], value := some (true, pf.map (fun _ => true)) }
    else if !env.receiveOk then
      if env.lastError ≠ codes.STORM_ERROR_NO_MESSAGES_WAITING then
        let t := nthread_terminate_game codes
          { s with sgbSyncCountdown := sgbSyncCountdown,
                   sgbPacketCountdown := sgbPacketCountdown }
          "SNetReceiveTurns" env.lastError env.sdlError
        match t.value with
        | none =>
          { state := t.state, trace := Event.SNetReceiveTurns :: t.trace, value := none }
        | some _ =>
          { state := { t.state with sgbTicsOutOfSync := false, sgbSyncCountdown := 1,
                                    sgbPacketCountdown := 1 },
            trace := Event.SNetReceiveTurns :: t.trace, value := some (false, pf) }
      else
        { state := { s with sgbTicsOutOfSync := false, sgbSyncCountdown := 1,
                            sgbPacketCountdown := 1 },
          trace := [Event.SNetReceiveTurns], value := some (false, pf) }
    else
      let last_tick := if !s.sgbTicsOutOfSync then toInt32 env.ticks else s.last_tick
      { state := { s with sgbTicsOutOfSync := true, sgbSyncCountdown := 4,
                          sgbPacketCountdown := sgbPacketCountdown,
                          last_tick := toInt32 (last_tick + s.gnTickDelay) },
        trace := [Event.SNetReceiveTurns, Event.multi_msg_countdown],
        value := some (true, pf.map (fun _ => true)) }

/-! ## `nthread_set_turn_upper_bit` and `nthread_start` (lines 138-190) -/

/-- Function `nthread_set_turn_upper_bit()`. -/
def nthread_set_turn_upper_bit (s : NState) : NState :=
  { s with turn_upper_bit := 0x80000000 }

/-- The fields of `_SNETCAPS` that `nthread_start` reads after
`SNetGetProviderCaps`. The structure is declared in `storm/storm.h` (not among
the sources); `caps.size = 36` is nine 32-bit fields, taken as unsigned. -/
structure _SNETCAPS where
  maxmessagesize : Nat
  maxplayers : Nat
  bytessec : Nat
  defaultturnssec : Nat
  defaultturnsintransit : Nat
  deriving DecidableEq, Repr

/-- What the outside answers during one call of `nthread_start`. -/
structure StartEnv where
  /-- Value of `SDL_GetTicks()`. -/
  ticks : Nat
  /-- Contents of `caps` after `SNetGetProviderCaps(&caps)`; the result of the
  call itself is not looked at by `nthread_start`. -/
  caps : _SNETCAPS
  /-- Answer of `CreateThread`: `none` for a null handle, else the thread id
  stored into `glpNThreadId`. -/
  thread : Option Nat
  /-- String of `SDL_GetError()` after a failed `CreateThread`. -/
  sdlError : String

/-- Ways in which `nthread_start` can fail to reach its end, other than
through `app_fatal`. -/
inductive Fault where
  /-- The division `gdwNormalMsgSize /= caps.maxplayers` has divisor zero. -/
  | divisionByZero
  /-- The loop of lines 174-177 is still running when the fuel is used up. -/
  | loopNotFinished
  deriving DecidableEq, Repr

/-- The `while` loop of lines 174-177:
`while (gdwNormalMsgSize < 0x80) { gdwNormalMsgSize *= 2; sgbNetUpdateRate *= 2; }`
on the values of `gdwNormalMsgSize` (`uint32_t`) and `sgbNetUpdateRate` (`BYTE`).
Every iteration uses one unit of fuel; `none` when the fuel does not suffice. -/
def grow_loop : Nat → Nat → Nat → Option (Nat × Nat)
  | fuel, gdwNormalMsgSize, sgbNetUpdateRate =>
    if gdwNormalMsgSize < 0x80 then
      match fuel with
      | 0 => none
      | fuel + 1 =>
        grow_loop fuel (gdwNormalMsgSize * 2 % 4294967296) (toByte (sgbNetUpdateRate * 2))
    else some (gdwNormalMsgSize, sgbNetUpdateRate)

/-- Lines 153-179 of `nthread_start`: the pacing parameters derived from the
provider capabilities. `MAX_PLRS` is the constant of that name (its definition
is not among the sources). The new values of the globals are named like the
globals and written back in one record update at the end. -/
def nthread_start_pacing (MAX_PLRS fuel : Nat) (s : NState) (caps : _SNETCAPS) :
    Except Fault NState :=
  let gdwTurnsInTransit := caps.defaultturnsintransit
  let gdwTurnsInTransit := if gdwTurnsInTransit = 0 then 1 else gdwTurnsInTransit
  let sgbNetUpdateRate :=
    if caps.defaultturnssec ≤ 20 ∧ caps.defaultturnssec ≠ 0 then
      toByte (20 / caps.defaultturnssec)
    else 1
  let largestMsgSize := if caps.maxmessagesize < 0x200 then caps.maxmessagesize else 512
  let gdwDeltaBytesSec := caps.bytessec / 4
  let gdwLargestMsgSize := largestMsgSize
  let gdwNormalMsgSize := caps.bytessec * sgbNetUpdateRate % 4294967296 / 20
  let gdwNormalMsgSize := gdwNormalMsgSize * 3 % 4294967296
  let gdwNormalMsgSize := gdwNormalMsgSize >>> 2
  let maxplayers := if caps.maxplayers > MAX_PLRS then MAX_PLRS else caps.maxplayers
  if maxplayers = 0 then Except.error Fault.divisionByZero
  else
    let gdwNormalMsgSize := gdwNormalMsgSize / maxplayers
    match grow_loop fuel gdwNormalMsgSize sgbNetUpdateRate with
    | none => Except.error Fault.loopNotFinished
    | some (gdwNormalMsgSize, sgbNetUpdateRate) =>
      let gdwNormalMsgSize :=
        if gdwNormalMsgSize > largestMsgSize then largestMsgSize else gdwNormalMsgSize
      Except.ok { s with gdwTurnsInTransit := gdwTurnsInTransit,
                         sgbNetUpdateRate := sgbNetUpdateRate,
                         gdwDeltaBytesSec := gdwDeltaBytesSec,
                         gdwLargestMsgSize := gdwLargestMsgSize,
                         gdwNormalMsgSize := gdwNormalMsgSize }

/-- Lines 180-189 of `nthread_start`: in multiplayer mode the background
thread is created while the critical section is held. -/
def nthread_start_thread (s : NState) (env : StartEnv) : Run Unit :=
  if s.gbIsMultiplayer then
    match env.thread with
    | none =>
      let r : Run Unit :=
        app_fatal { s with sgbThreadIsRunning := false, nthread_should_run := true,
                           sghThread := false }
          (fmt_fcn_error "nthread2" env.sdlError)
      { r with trace := [Event.sgMemCrit_Enter, Event.CreateThread] ++ r.trace }
    | some id =>
      { state := { s with sgbThreadIsRunning := false, nthread_should_run := true,
                          sghThread := true, glpNThreadId := id },
        trace := [Event.sgMemCrit_Enter, Event.CreateThread],
        value := some () }
  else
    { state := s, trace := [], value := some () }

/-- Function `nthread_start(setTurnUpperBit)`. The result is `Except.error` when
the function does not reach its end because of a `Fault`. -/
def nthread_start (MAX_PLRS fuel : Nat) (s : NState) (env : StartEnv)
    (setTurnUpperBit : Bool) : Except Fault (Run Unit) :=
  let s := { s with last_tick := toInt32 env.ticks, sgbPacketCountdown := 1,
                    sgbSyncCountdown := 1, sgbTicsOutOfSync := true }
  let s := if setTurnUpperBit then nthread_set_turn_upper_bit s
    else { s with turn_upper_bit := 0 }
  match nthread_start_pacing MAX_PLRS fuel s env.caps with
  | Except.error f => Except.error f
  | Except.ok s =>
    let r := nthread_start_thread s env
    Except.ok { r with trace := Event.SNetGetProviderCaps :: r.trace }

/-- The value of `sgbNetUpdateRate` with which the doubling loop of
`nthread_start` is entered (lines 159-162). -/
def start_rate (caps : _SNETCAPS) : Nat :=
  if caps.defaultturnssec ≤ 20 ∧ caps.defaultturnssec ≠ 0 then
    toByte (20 / caps.defaultturnssec)
  else 1

/-- The value of `caps.maxplayers` after the clamp of lines 171-172. -/
def start_players (MAX_PLRS : Nat) (caps : _SNETCAPS) : Nat :=
  if caps.maxplayers > MAX_PLRS then MAX_PLRS else caps.maxplayers

/-- The value of `gdwNormalMsgSize` with which the doubling loop of
`nthread_start` is entered (lines 168-173). -/
def start_msg_size (MAX_PLRS : Nat) (caps : _SNETCAPS) : Nat :=
  ((caps.bytessec * start_rate caps % 4294967296 / 20 * 3 % 4294967296) >>> 2)
    / start_players MAX_PLRS caps

/-- The value of `largestMsgSize` (lines 163-165). -/
def start_largest (caps : _SNETCAPS) : Nat :=
  if caps.maxmessagesize < 0x200 then caps.maxmessagesize else 512

/-! ## `nthread_cleanup` and `nthread_ignore_mutex` (lines 192-215) -/

/-- Function `nthread_cleanup()`. `caller` is the value of
`SDL_GetThreadID(nullptr)`, the id of the calling thread. The call of
`SDL_WaitThread` is recorded; the embedding is sequential and says nothing
about how long that call blocks. -/
def nthread_cleanup (s : NState) (caller : Nat) : Run Unit :=
  if s.sghThread = true ∧ s.glpNThreadId ≠ caller then
    { state := { s with nthread_should_run := false, gdwTurnsInTransit := 0,
                        gdwNormalMsgSize := 0, gdwLargestMsgSize := 0,
                        sghThread := false },
      trace := (if !s.sgbThreadIsRunning then [Event.sgMemCrit_Leave] else [])
        ++ [Event.SDL_WaitThread],
      value := some () }
  else
    { state := { s with nthread_should_run := false, gdwTurnsInTransit := 0,
                        gdwNormalMsgSize := 0, gdwLargestMsgSize := 0 },
      trace := [], value := some () }

/-- Function `nthread_ignore_mutex(bStart)`. -/
def nthread_ignore_mutex (s : NState) (bStart : Bool) : Run Unit :=
  if s.sghThread then
    { state := { s with sgbThreadIsRunning := bStart },
      trace := [if bStart then Event.sgMemCrit_Leave else Event.sgMemCrit_Enter],
      value := some () }
  else
    { state := s, trace := [], value := some () }

/-- Modelled from the spec: the class `CCritSect` of `sgMemCrit` is not among
the sources; `Enter` acquires the critical section for the calling thread and
`Leave` releases it. Given whether the calling thread holds the section before
a trace of its calls, this is whether it holds it afterwards. -/
def sgMemCrit_held : Bool → List Event → Bool
  | held, [] => held
  | _, Event.sgMemCrit_Enter :: es => sgMemCrit_held true es
  | _, Event.sgMemCrit_Leave :: es => sgMemCrit_held false es
  | held, _ :: es => sgMemCrit_held held es

/-! ## `nthread_has_500ms_passed` (lines 221-230) -/

/-- Function `nthread_has_500ms_passed()`; `ticks` is the value of
`SDL_GetTicks()`. -/
def nthread_has_500ms_passed (s : NState) (ticks : Nat) : Run Bool :=
  let currentTickCount := toInt32 ticks
  let ticksElapsed := toInt32 (currentTickCount - s.last_tick)
  if s.gbIsMultiplayer = false ∧ ticksElapsed > toInt32 (s.gnTickDelay * 10) then
    let ticksElapsed : Int := 0
    { state := { s with last_tick := currentTickCount }, trace := [],
      value := some (decide (ticksElapsed ≥ 0)) }
  else
    { state := s, trace := [], value := some (decide (ticksElapsed ≥ 0)) }

/-! ## `nthread_UpdateProgressToNextGameTick` (lines 232-249) -/

/-- What `nthread_UpdateProgressToNextGameTick` reads from other modules. -/
structure ProgressEnv where
  /-- Global `gbRunGame`. -/
  gbRunGame : Bool
  /-- Global `PauseMode`. -/
  PauseMode : Int
  /-- Value of `gmenu_is_active()`. -/
  gmenu_is_active : Bool
  /-- Global `gbProcessPlayers`. -/
  gbProcessPlayers : Bool
  /-- Value of `SDL_GetTicks()`. -/
  ticks : Nat

/-- Function `nthread_UpdateProgressToNextGameTick()`. The `float` quotient of
line 243 is taken as the exact rational quotient (for `gnTickDelay = 0` the
model gives 0 where the code divides by zero). -/
def nthread_UpdateProgressToNextGameTick (s : NState) (env : ProgressEnv) : NState :=
  if env.gbRunGame = false ∨ env.PauseMode ≠ 0 ∨
      (s.gbIsMultiplayer = false ∧ env.gmenu_is_active = true) ∨
      env.gbProcessPlayers = false then s
  else
    let currentTickCount := toInt32 env.ticks
    let ticksElapsed := toInt32 (s.last_tick - currentTickCount)
    if ticksElapsed ≤ 0 then
      { s with gfProgressToNextGameTick := 1 }
    else
      let ticksAdvanced := toInt32 (s.gnTickDelay - ticksElapsed)
      let fraction : Rat := (ticksAdvanced : Rat) / (s.gnTickDelay : Rat)
      let s1 := if fraction > 1 then { s with gfProgressToNextGameTick := 1 } else s
      let s2 := if fraction < 0 then { s1 with gfProgressToNextGameTick := 0 } else s1
      { s2 with gfProgressToNextGameTick := fraction }

/-! ## Plural forms in `utils/language.cpp` -/

/-- The lambda of line 72, the initial value of `GetLocalPluralId`
(English, Danish, Spanish, Italian, Swedish). -/
def plural_english (n : Int) : Int := if n ≠ 1 then 1 else 0

/-- The lambda of line 100 (Chinese). -/
def plural_chinese (_n : Int) : Int := 0

/-- The lambda of line 106 (Portuguese, French). -/
def plural_french (n : Int) : Int := if n > 1 then 1 else 0

/-- The lambda of lines 112-118 (Russian, Croatian); `%` is the remainder of
C, which truncates towards zero. -/
def plural_russian (n : Int) : Int :=
  if n.tmod 10 = 1 ∧ n.tmod 100 ≠ 11 then 0
  else if n.tmod 10 ≥ 2 ∧ n.tmod 10 ≤ 4 ∧ (n.tmod 100 < 12 ∨ n.tmod 100 > 14) then 1
  else 2

/-- The lambda of lines 124-130 (Polish). -/
def plural_polish (n : Int) : Int :=
  if n = 1 then 0
  else if n.tmod 10 ≥ 2 ∧ n.tmod 10 ≤ 4 ∧ (n.tmod 100 < 10 ∨ n.tmod 100 ≥ 20) then 1
  else 2

/-- The globals of `language.cpp` that the plural forms use. -/
structure LangState where
  /-- Global `int PluralForms`. -/
  PluralForms : Int := 2
  /-- Global `std::function<int(int n)> GetLocalPluralId`. -/
  GetLocalPluralId : Int → Int := plural_english
  /-- The number of maps in the vector `translation`, initially `{ {}, {} }`. -/
  translation_size : Nat := 2

/-- The subscripts of the vector `translation` in one call of
`LanguagePluralTranslate(singular, plural, count)`, in order: `translation[n]`
of line 208 and, when that map has no entry for `singular` (`found = false`),
`translation[1]` or `translation[0]` of lines 210-213. -/
def LanguagePluralTranslate_subscripts (st : LangState) (count : Int) (found : Bool) :
    List Int :=
  let n := st.GetLocalPluralId count
  if found then [n]
  else if count ≠ 1 then [n, 1]
  else [n, 0]

/-! ## Sequences of calls -/

/-- One call made during a session. -/
inductive Call where
  /-- Call `nthread_send_and_recv_turn(curTurn, turnDelta)`. -/
  | send_and_recv_turn (env : SendEnv) (curTurn : Nat) (turnDelta : Int)
  /-- Call `nthread_recv_turns(pfSendAsync)`. -/
  | recv_turns (env : RecvEnv) (pfSendAsync : Option Bool)

/-- Runs one call and forgets the returned value. -/
def run_call (codes : StormCodes) (s : NState) : Call → Run Unit
  | Call.send_and_recv_turn env curTurn turnDelta =>
    let r := nthread_send_and_recv_turn codes s env curTurn turnDelta
    { state := r.state, trace := r.trace, value := r.value.map (fun _ => ()) }
  | Call.recv_turns env pfSendAsync =>
    let r := nthread_recv_turns codes s env pfSendAsync
    { state := r.state, trace := r.trace, value := r.value.map (fun _ => ()) }

/-- Runs the calls one after the other; a call that ends the process through
`app_fatal` is the last one that runs. -/
def run_calls (codes : StormCodes) : NState → List Call → Run Unit
  | s, [] => { state := s, trace := [], value := some () }
  | s, c :: cs =>
    let r := run_call codes s c
    match r.value with
    | none => r
    | some _ =>
      let r2 := run_calls codes r.state cs
      { r2 with trace := r.trace ++ r2.trace }

/-- The turn messages handed to `SNetSendTurn`, in order. -/
def sent_turns : List Event → List Nat
  | [] => []
  | Event.SNetSendTurn turn :: es => turn :: sent_turns es
  | _ :: es => sent_turns es

/-- A sequence of polls of `nthread_recv_turns`, one record per poll that
runs; a poll that ends the process is the last one. -/
def recv_polls (codes : StormCodes) :
    NState → List (RecvEnv × Option Bool) → List (Run (Bool × Option Bool))
  | _, [] => []
  | s, p :: ps =>
    let r := nthread_recv_turns codes s p.1 p.2
    r :: (match r.value with
      | none => []
      | some _ => recv_polls codes r.state ps)

/-! ## Concrete inputs -/

/-- Transport answers in which the query reports `c` turns in transit and
every send succeeds. -/
def sendEnvOk (c : Nat) : SendEnv :=
  { turnsInTransit := some c, sendOk := fun _ => true, lastError := 0, sdlError := "" }

/-- Provider capabilities of the pacing scenario: 4800 bytes per second,
20 turns per second, messages of at most 512 bytes, 4 players. -/
def capsExample : _SNETCAPS :=
  { maxmessagesize := 512, maxplayers := 4, bytessec := 4800, defaultturnssec := 20,
    defaultturnsintransit := 2 }

/-- Answers to `nthread_start` at tick 1000 with `capsExample`. -/
def startEnvExample : StartEnv :=
  { ticks := 1000, caps := capsExample, thread := some 1, sdlError := "" }

/-- The run of `nthread_start(true)` on `startEnvExample` in single-player mode. -/
def startedExample : Run Unit :=
  { state :=
      { sgbNetUpdateRate := 4, gdwTurnsInTransit := 2, gdwLargestMsgSize := 512,
        gdwNormalMsgSize := 180, gdwDeltaBytesSec := 1200, sgbSyncCountdown := 1,
        turn_upper_bit := 0x80000000, sgbTicsOutOfSync := true, sgbPacketCountdown := 1,
        last_tick := 1000 },
    trace := [Event.SNetGetProviderCaps],
    value := some () }

/-- Answers to a poll whose network receive succeeds at tick 1000. -/
def recvEnvOk : RecvEnv :=
  { receiveOk := true, lastError := 0, sdlError := "", ticks := 1000 }

/-- Answers to a poll whose network receive finds no messages waiting. -/
def recvEnvNoMessages : RecvEnv :=
  { receiveOk := false, lastError := stormCodes.STORM_ERROR_NO_MESSAGES_WAITING,
    sdlError := "", ticks := 1000 }

/-- A state with update rate 2 in which the next poll reaches the receive. -/
def pollStateExample : NState :=
  { sgbNetUpdateRate := 2, sgbSyncCountdown := 1, sgbPacketCountdown := 1 }

/-- A state with update rate 4 in which the next poll reaches the receive. -/
def noMessagesState : NState :=
  { sgbNetUpdateRate := 4, sgbSyncCountdown := 1, sgbPacketCountdown := 1,
    last_tick := 5000 }

/-- Answers to `nthread_start` from a provider with a tiny byte budget:
4 bytes per second, 1 turn per second, 1 player. -/
def startEnvTiny : StartEnv :=
  { ticks := 1000,
    caps := { maxmessagesize := 512, maxplayers := 1, bytessec := 4, defaultturnssec := 1,
              defaultturnsintransit := 0 },
    thread := some 1, sdlError := "" }

/-- Answers to `nthread_start` from a provider that reports no players. -/
def startEnvNoPlayers : StartEnv :=
  { ticks := 1000,
    caps := { maxmessagesize := 512, maxplayers := 0, bytessec := 4800, defaultturnssec := 20,
              defaultturnsintransit := 2 },
    thread := some 1, sdlError := "" }

/-- Answers to `nthread_start` from a provider that reports a byte budget of 0. -/
def startEnvNoBytes : StartEnv :=
  { ticks := 1000,
    caps := { maxmessagesize := 512, maxplayers := 4, bytessec := 0, defaultturnssec := 20,
              defaultturnsintransit := 2 },
    thread := some 1, sdlError := "" }

/-- A single-player state whose last tick was at tick count 0, tick delay 50. -/
def pausedState : NState :=
  { last_tick := 0, gnTickDelay := 50, gbIsMultiplayer := false }

/-- A multiplayer state whose next tick is due at tick count 1020, tick delay 50. -/
def multiplayerState : NState :=
  { last_tick := 1020, gnTickDelay := 50, gbIsMultiplayer := true }

/-- A state whose next tick is due at tick count 1100, tick delay 50. -/
def progressLateState : NState :=
  { last_tick := 1100, gnTickDelay := 50 }

/-- A running, unpaused game with the menu closed, at tick count 1000. -/
def progressEnvRunning : ProgressEnv :=
  { gbRunGame := true, PauseMode := 0, gmenu_is_active := false, gbProcessPlayers := true,
    ticks := 1000 }

/-- A state on the cheap path of the next poll: packet countdown 2, last tick
at 1000, tick delay 50. -/
def pollQuietState : NState :=
  { sgbNetUpdateRate := 2, sgbSyncCountdown := 4, sgbPacketCountdown := 2,
    sgbTicsOutOfSync := true, last_tick := 1000, gnTickDelay := 50 }

/-- A state after a failed receive: both countdowns at 1, `sgbTicsOutOfSync`
false, last tick at 400. -/
def outOfSyncState : NState :=
  { sgbNetUpdateRate := 2, sgbSyncCountdown := 1, sgbPacketCountdown := 1,
    sgbTicsOutOfSync := false, last_tick := 400, gnTickDelay := 50 }

/-- A multiplayer session with background thread 7 in which mutual exclusion
is enabled: the simulation thread holds `sgMemCrit`. -/
def threadHeldState : NState :=
  { sghThread := true, glpNThreadId := 7, sgbThreadIsRunning := false,
    nthread_should_run := true, gbIsMultiplayer := true }

/-- The same session after `nthread_ignore_mutex(true)`. -/
def threadFreeState : NState :=
  { sghThread := true, glpNThreadId := 7, sgbThreadIsRunning := true,
    nthread_should_run := true, gbIsMultiplayer := true }

/-! ## Arithmetic of the machine integers -/

theorem and_0xFFFF (x : Nat) : x &&& 0xFFFF = x % 65536 :=
  Nat.and_pow_two_sub_one_eq_mod x 16

theorem and_0x7FFFFFFF (x : Nat) : x &&& 0x7FFFFFFF = x % 2147483648 :=
  Nat.and_pow_two_sub_one_eq_mod x 31

theorem toUint32_lt (x : Int) : toUint32 x < 4294967296 := by
  unfold toUint32
  omega

theorem advance_turn_lt (curTurn : Nat) (turnDelta : Int) :
    advance_turn curTurn turnDelta < 0x7FFFFFFF := by
  unfold advance_turn
  simp only
  split
  · rw [and_0xFFFF]
    omega
  · omega

/-! ## Facts about `nthread_terminate_game` and the send loop -/

theorem sent_turns_append (t1 t2 : List Event) :
    sent_turns (t1 ++ t2) = sent_turns t1 ++ sent_turns t2 := by
  induction t1 with
  | nil => rfl
  | cons e es ih => cases e <;> simp [sent_turns, ih]

theorem terminate_game_sent (codes : StormCodes) (s : NState) (pszFcn : String)
    (sErr : Nat) (sdlError : String) :
    sent_turns (nthread_terminate_game codes s pszFcn sErr sdlError).trace = [] := by
  unfold nthread_terminate_game app_fatal
  split
  · rfl
  · split <;> rfl

theorem terminate_game_upper_bit (codes : StormCodes) (s : NState) (pszFcn : String)
    (sErr : Nat) (sdlError : String) :
    (nthread_terminate_game codes s pszFcn sErr sdlError).state.turn_upper_bit
      = s.turn_upper_bit := by
  unfold nthread_terminate_game app_fatal
  split
  · rfl
  · split <;> rfl

/-- With every send succeeding, the loop entered with `curTurnsInTransit = c`
returns and has sent `gdwTurnsInTransit - c` turns; its result is the last
advanced counter when it sent anything. -/
theorem send_loop_all_ok (codes : StormCodes) (env : SendEnv) (turnDelta : Int)
    (hs : ∀ i, env.sendOk i = true) (n : Nat) :
    ∀ (s : NState) (c curTurn i : Nat), s.gdwTurnsInTransit - c = n →
      (sent_turns (send_loop codes env turnDelta s c curTurn i).trace).length = n ∧
      ∃ v, (send_loop codes env turnDelta s c curTurn i).value = some v ∧
        (c < s.gdwTurnsInTransit → v < 0x7FFFFFFF) ∧
        (s.gdwTurnsInTransit ≤ c → v = curTurn) := by
  induction n with
  | zero =>
    intro s c curTurn i hn
    have hc : ¬ c < s.gdwTurnsInTransit := by omega
    rw [send_loop]
    simp [hc, sent_turns]
  | succ n ih =>
    intro s c curTurn i hn
    have hc : c < s.gdwTurnsInTransit := by omega
    rw [send_loop]
    simp only [hc, if_true, hs i]
    obtain ⟨h1, v, h2, h3, h4⟩ := ih { s with turn_upper_bit := 0 } (c + 1)
      (advance_turn curTurn turnDelta) (i + 1) (by simp only; omega)
    refine ⟨by simp [sent_turns, h1], v, h2, fun _ => ?_, fun h => absurd h (by omega)⟩
    by_cases hlt : c + 1 < s.gdwTurnsInTransit
    · exact h3 hlt
    · rw [h4 (by simp only; omega)]
      exact advance_turn_lt curTurn turnDelta

/-! ## The messages of a call and of a session -/

theorem encode_turn_testBit (u curTurn : Nat) :
    (encode_turn u curTurn).testBit 31 = u.testBit 31 := by
  unfold encode_turn
  rw [Nat.testBit_or, Nat.testBit_and]
  have h : (0x7FFFFFFF : Nat).testBit 31 = false := by decide
  rw [h]
  simp

theorem encode_turn_low_bits (u curTurn : Nat) (hu : u = 0 ∨ u = 0x80000000) :
    encode_turn u curTurn % 2147483648 = curTurn % 2147483648 := by
  apply Nat.eq_of_testBit_eq
  intro j
  unfold encode_turn
  rw [and_0x7FFFFFFF]
  have e : (2147483648 : Nat) = 2 ^ 31 := by norm_num
  rw [e, Nat.testBit_mod_two_pow, Nat.testBit_mod_two_pow, Nat.testBit_or,
    Nat.testBit_mod_two_pow]
  by_cases hj : j < 31
  · have hz : u.testBit j = false := by
      rcases hu with h | h
      · rw [h]; simp
      · have e2 : u = 2 ^ 31 := by rw [h]; norm_num
        rw [e2, Nat.testBit_two_pow]
        simp
        omega
    simp [hj, hz]
  · simp [hj]

/-- The messages of one run of the send loop: the `k`-th one encodes the
counter after `k` advance steps, with the pending upper bit in the first
message only; the upper bit is consumed as soon as one message is handed
over. -/
theorem send_loop_messages (codes : StormCodes) (env : SendEnv) (turnDelta : Int) (n : Nat) :
    ∀ (s : NState) (c curTurn i : Nat), s.gdwTurnsInTransit - c = n →
      (send_loop codes env turnDelta s c curTurn i).state.turn_upper_bit
        = (if sent_turns (send_loop codes env turnDelta s c curTurn i).trace = []
            then s.turn_upper_bit else 0) ∧
      ∀ (k m : Nat),
        (sent_turns (send_loop codes env turnDelta s c curTurn i).trace)[k]? = some m →
        m = encode_turn (if k = 0 then s.turn_upper_bit else 0)
          ((fun x => advance_turn x turnDelta)^[k] curTurn) := by
  induction n with
  | zero =>
    intro s c curTurn i hn
    have hc : ¬ c < s.gdwTurnsInTransit := by omega
    rw [send_loop]
    simp [hc, sent_turns]
  | succ n ih =>
    intro s c curTurn i hn
    have hc : c < s.gdwTurnsInTransit := by omega
    obtain ⟨ih1, ih2⟩ := ih { s with turn_upper_bit := 0 } (c + 1)
      (advance_turn curTurn turnDelta) (i + 1) (by simp only; omega)
    rw [send_loop]
    simp only [hc, if_true]
    cases hok : env.sendOk i with
    | true =>
      simp only [if_true, sent_turns]
      refine ⟨?_, ?_⟩
      · rw [ih1]
        simp
      · intro k m hk
        cases k with
        | zero => simpa using hk.symm
        | succ k =>
          rw [List.getElem?_cons_succ] at hk
          have := ih2 k m hk
          simpa [Function.iterate_succ_apply] using this
    | false =>
      simp only [Bool.false_eq_true, if_false, sent_turns, terminate_game_sent,
        terminate_game_upper_bit]
      refine ⟨by simp, ?_⟩
      intro k m hk
      cases k with
      | zero => simpa using hk.symm
      | succ k => simp at hk

/-- The messages of one call of `nthread_send_and_recv_turn`. -/
theorem send_and_recv_turn_messages (codes : StormCodes) (s : NState) (env : SendEnv)
    (curTurn : Nat) (turnDelta : Int) :
    (nthread_send_and_recv_turn codes s env curTurn turnDelta).state.turn_upper_bit
        = (if sent_turns (nthread_send_and_recv_turn codes s env curTurn turnDelta).trace = []
            then s.turn_upper_bit else 0) ∧
      ∀ (k m : Nat),
        (sent_turns (nthread_send_and_recv_turn codes s env curTurn turnDelta).trace)[k]?
          = some m →
        m = encode_turn (if k = 0 then s.turn_upper_bit else 0)
          ((fun x => advance_turn x turnDelta)^[k] curTurn) := by
  unfold nthread_send_and_recv_turn
  cases hq : env.turnsInTransit with
  | none =>
    simp [sent_turns, terminate_game_sent, terminate_game_upper_bit]
  | some c =>
    simpa [sent_turns] using send_loop_messages codes env turnDelta _ s c curTurn 0 rfl

theorem recv_turns_sent (codes : StormCodes) (s : NState) (env : RecvEnv)
    (pfSendAsync : Option Bool) :
    sent_turns (nthread_recv_turns codes s env pfSendAsync).trace = [] ∧
      (nthread_recv_turns codes s env pfSendAsync).state.turn_upper_bit
        = s.turn_upper_bit := by
  by_cases h1 : toChar (s.sgbPacketCountdown - 1) > 0
  · simp [nthread_recv_turns, h1, sent_turns]
  · by_cases h2 : toChar (s.sgbSyncCountdown - 1) = 0
    · cases h3 : env.receiveOk
      · by_cases h4 : env.lastError = codes.STORM_ERROR_NO_MESSAGES_WAITING
        · simp [nthread_recv_turns, h1, h2, h3, h4, sent_turns]
        · by_cases h5 : env.lastError = codes.STORM_ERROR_INVALID_PLAYER
          · have h4' : ¬ codes.STORM_ERROR_INVALID_PLAYER
                = codes.STORM_ERROR_NO_MESSAGES_WAITING := h5 ▸ h4
            simp [nthread_recv_turns, h1, h2, h3, h4', h5, nthread_terminate_game, sent_turns]
          · by_cases h6 : env.lastError ≠ codes.STORM_ERROR_GAME_TERMINATED ∧
                env.lastError ≠ codes.STORM_ERROR_NOT_IN_GAME
            · simp [nthread_recv_turns, h1, h2, h3, h4, h5, h6, nthread_terminate_game,
                app_fatal, sent_turns]
            · simp [nthread_recv_turns, h1, h2, h3, h4, h5, h6, nthread_terminate_game,
                sent_turns]
      · cases h7 : s.sgbTicsOutOfSync <;>
          simp [nthread_recv_turns, h1, h2, h3, h7, sent_turns]
    · simp [nthread_recv_turns, h1, h2, sent_turns]
theorem run_call_messages (codes : StormCodes) (s : NState) (call : Call) :
    (run_call codes s call).state.turn_upper_bit
        = (if sent_turns (run_call codes s call).trace = [] then s.turn_upper_bit else 0) ∧
      ∀ (k m : Nat), (sent_turns (run_call codes s call).trace)[k]? = some m →
        m.testBit 31 = (if k = 0 then s.turn_upper_bit else 0).testBit 31 := by
  cases call with
  | send_and_recv_turn env curTurn turnDelta =>
    obtain ⟨h1, h2⟩ := send_and_recv_turn_messages codes s env curTurn turnDelta
    refine ⟨h1, fun k m hk => ?_⟩
    rw [h2 k m hk, encode_turn_testBit]
  | recv_turns env pfSendAsync =>
    obtain ⟨h1, h2⟩ := recv_turns_sent codes s env pfSendAsync
    refine ⟨?_, fun k m hk => ?_⟩
    · simp only [run_call, h1, h2, if_true]
    · simp only [run_call, h1] at hk
      simp at hk

theorem run_calls_cons (codes : StormCodes) (s : NState) (c : Call) (cs : List Call) :
    ((run_call codes s c).value = none ∧
        run_calls codes s (c :: cs) = run_call codes s c) ∨
      ((run_calls codes s (c :: cs)).state
          = (run_calls codes (run_call codes s c).state cs).state ∧
        (run_calls codes s (c :: cs)).trace
          = (run_call codes s c).trace
            ++ (run_calls codes (run_call codes s c).state cs).trace) := by
  cases h : (run_call codes s c).value with
  | none => left; exact ⟨rfl, by simp [run_calls, h]⟩
  | some v => right; simp [run_calls, h]

/-- Once the upper bit is clear, it stays clear and no message of the session
carries it. -/
theorem run_calls_bit_clear (codes : StormCodes) (calls : List Call) :
    ∀ (s : NState), s.turn_upper_bit = 0 →
      (run_calls codes s calls).state.turn_upper_bit = 0 ∧
      ∀ m ∈ sent_turns (run_calls codes s calls).trace, m.testBit 31 = false := by
  induction calls with
  | nil =>
    intro s hs
    simp [run_calls, sent_turns, hs]
  | cons c cs ih =>
    intro s hs
    obtain ⟨h1, h2⟩ := run_call_messages codes s c
    have hst : (run_call codes s c).state.turn_upper_bit = 0 := by
      rw [h1, hs]; simp
    have hm : ∀ m ∈ sent_turns (run_call codes s c).trace, m.testBit 31 = false := by
      intro m hmem
      obtain ⟨k, hk⟩ := List.mem_iff_getElem?.mp hmem
      rw [h2 k m hk, hs]
      simp
    rcases run_calls_cons codes s c cs with ⟨-, heq⟩ | ⟨hstate, htrace⟩
    · rw [heq]
      exact ⟨hst, hm⟩
    · obtain ⟨ih1, ih2⟩ := ih _ hst
      rw [hstate, htrace, sent_turns_append]
      refine ⟨ih1, fun m hmem => ?_⟩
      rcases List.mem_append.mp hmem with h | h
      · exact hm m h
      · exact ih2 m h

/-- While the upper bit is pending, the first message of the session, and no
other, carries it. -/
theorem run_calls_bit_pending (codes : StormCodes) (calls : List Call) :
    ∀ (s : NState), s.turn_upper_bit = 0x80000000 →
      ∀ (k m : Nat), (sent_turns (run_calls codes s calls).trace)[k]? = some m →
        (m.testBit 31 = true ↔ k = 0) := by
  have hbit : (0x80000000 : Nat).testBit 31 = true := by decide
  induction calls with
  | nil =>
    intro s _ k m hk
    simp [run_calls, sent_turns] at hk
  | cons c cs ih =>
    intro s hs k m hk
    obtain ⟨h1, h2⟩ := run_call_messages codes s c
    have hcall : ∀ (k m : Nat), (sent_turns (run_call codes s c).trace)[k]? = some m →
        (m.testBit 31 = true ↔ k = 0) := by
      intro k m hk
      rw [h2 k m hk, hs]
      by_cases hk0 : k = 0
      · simp [hk0, hbit]
      · simp [hk0]
    rcases run_calls_cons codes s c cs with ⟨-, heq⟩ | ⟨-, htrace⟩
    · rw [heq] at hk
      exact hcall k m hk
    · rw [htrace, sent_turns_append] at hk
      by_cases hnil : sent_turns (run_call codes s c).trace = []
      · rw [hnil, List.nil_append] at hk
        refine ih _ ?_ k m hk
        rw [h1, hs]
        simp [hnil]
      · by_cases hlt : k < (sent_turns (run_call codes s c).trace).length
        · rw [List.getElem?_append_left hlt] at hk
          exact hcall k m hk
        · rw [List.getElem?_append_right (by omega)] at hk
          have hst : (run_call codes s c).state.turn_upper_bit = 0 := by
            rw [h1]; simp [hnil]
          have hclear := (run_calls_bit_clear codes cs _ hst).2 m (List.getElem?_mem hk)
          have hpos : 0 < (sent_turns (run_call codes s c).trace).length :=
            List.length_pos.mpr hnil
          constructor
          · intro h
            rw [hclear] at h
            cases h
          · intro h
            omega

/-- In a session the pending upper bit is either `0` or `0x80000000` if it
was so at the start. -/
theorem run_calls_upper_bit (codes : StormCodes) (calls : List Call) :
    ∀ (s : NState), (s.turn_upper_bit = 0 ∨ s.turn_upper_bit = 0x80000000) →
      ((run_calls codes s calls).state.turn_upper_bit = 0 ∨
        (run_calls codes s calls).state.turn_upper_bit = 0x80000000) := by
  induction calls with
  | nil => intro s hs; simpa [run_calls] using hs
  | cons c cs ih =>
    intro s hs
    obtain ⟨h1, -⟩ := run_call_messages codes s c
    have hst : (run_call codes s c).state.turn_upper_bit = 0 ∨
        (run_call codes s c).state.turn_upper_bit = 0x80000000 := by
      rw [h1]
      split
      · exact hs
      · exact Or.inl rfl
    rcases run_calls_cons codes s c cs with ⟨-, heq⟩ | ⟨hstate, -⟩
    · rw [heq]; exact hst
    · rw [hstate]; exact ih _ hst

/-! ## Facts about `nthread_start` -/

/-- The pacing derivation in terms of the values with which the doubling loop
is entered. -/
theorem nthread_start_pacing_eq (MAX_PLRS fuel : Nat) (s : NState) (caps : _SNETCAPS) :
    nthread_start_pacing MAX_PLRS fuel s caps =
      if start_players MAX_PLRS caps = 0 then Except.error Fault.divisionByZero
      else
        match grow_loop fuel (start_msg_size MAX_PLRS caps) (start_rate caps) with
        | none => Except.error Fault.loopNotFinished
        | some p =>
          Except.ok { s with
            gdwTurnsInTransit :=
              if caps.defaultturnsintransit = 0 then 1 else caps.defaultturnsintransit,
            sgbNetUpdateRate := p.2,
            gdwDeltaBytesSec := caps.bytessec / 4,
            gdwLargestMsgSize := start_largest caps,
            gdwNormalMsgSize := if p.1 > start_largest caps then start_largest caps else p.1 } := by
  unfold nthread_start_pacing start_msg_size start_players start_rate start_largest
  simp only
  split
  all_goals
    split
    · rfl
    · split <;> rename_i hg <;> simp only [hg]

theorem nthread_start_pacing_upper_bit (MAX_PLRS fuel : Nat) (s s1 : NState)
    (caps : _SNETCAPS) (h : nthread_start_pacing MAX_PLRS fuel s caps = Except.ok s1) :
    s1.turn_upper_bit = s.turn_upper_bit := by
  rw [nthread_start_pacing_eq] at h
  split at h
  · cases h
  · split at h
    · cases h
    · cases h
      rfl

/-- The thread start of lines 180-189 leaves the pacing globals and the
pending upper bit as they are. -/
theorem nthread_start_thread_frame (s : NState) (env : StartEnv) :
    (nthread_start_thread s env).state.turn_upper_bit = s.turn_upper_bit ∧
    (nthread_start_thread s env).state.gdwTurnsInTransit = s.gdwTurnsInTransit ∧
    (nthread_start_thread s env).state.sgbNetUpdateRate = s.sgbNetUpdateRate ∧
    (nthread_start_thread s env).state.gdwLargestMsgSize = s.gdwLargestMsgSize ∧
    (nthread_start_thread s env).state.gdwNormalMsgSize = s.gdwNormalMsgSize := by
  unfold nthread_start_thread
  split
  · split
    · exact ⟨rfl, rfl, rfl, rfl, rfl⟩
    · exact ⟨rfl, rfl, rfl, rfl, rfl⟩
  · exact ⟨rfl, rfl, rfl, rfl, rfl⟩

theorem nthread_start_upper_bit (MAX_PLRS fuel : Nat) (s : NState) (env : StartEnv)
    (b : Bool) (r : Run Unit) (h : nthread_start MAX_PLRS fuel s env b = Except.ok r) :
    r.state.turn_upper_bit = (if b then 0x80000000 else 0) := by
  unfold nthread_start at h
  simp only at h
  split at h
  · cases h
  · rename_i s1 hp
    have hu := nthread_start_pacing_upper_bit _ _ _ _ _ hp
    cases h
    rw [(nthread_start_thread_frame s1 env).1, hu]
    cases b <;> rfl

/-! ## Single polls of `nthread_recv_turns` -/

/-- A poll is quiet when it returns `true` without any outside call. -/
theorem recv_turns_step (codes : StormCodes) (s : NState) (env : RecvEnv)
    (pfSendAsync : Option Bool) (r j p : Nat)
    (hr : 1 ≤ r ∧ r ≤ 127) (hrate : s.sgbNetUpdateRate = r)
    (hj : s.sgbSyncCountdown = (j : Int)) (hp : s.sgbPacketCountdown = (p : Int))
    (hj2 : 1 ≤ j ∧ j ≤ 127) (hp2 : 1 ≤ p ∧ p ≤ r) (hnot : 2 ≤ p ∨ 2 ≤ j) :
    (nthread_recv_turns codes s env pfSendAsync).trace = [] ∧
      (∃ a, (nthread_recv_turns codes s env pfSendAsync).value = some (true, a)) ∧
      (nthread_recv_turns codes s env pfSendAsync).state.sgbNetUpdateRate = r ∧
      ((2 ≤ p ∧
          (nthread_recv_turns codes s env pfSendAsync).state.sgbPacketCountdown
            = ((p - 1 : Nat) : Int) ∧
          (nthread_recv_turns codes s env pfSendAsync).state.sgbSyncCountdown = (j : Int)) ∨
        (p = 1 ∧
          (nthread_recv_turns codes s env pfSendAsync).state.sgbPacketCountdown = (r : Int) ∧
          (nthread_recv_turns codes s env pfSendAsync).state.sgbSyncCountdown
            = ((j - 1 : Nat) : Int))) := by
  by_cases h2 : 2 ≤ p
  · have h1 : toChar (s.sgbPacketCountdown - 1) > 0 := by
      rw [hp]; unfold toChar; omega
    have h3 : toChar (s.sgbPacketCountdown - 1) = ((p - 1 : Nat) : Int) := by
      rw [hp]; unfold toChar; omega
    simp only [nthread_recv_turns, h1, if_true]
    exact ⟨trivial, ⟨_, rfl⟩, hrate, Or.inl ⟨h2, h3, hj⟩⟩
  · have hp1 : p = 1 := by omega
    have hjj : 2 ≤ j := by omega
    have h1 : ¬ toChar (s.sgbPacketCountdown - 1) > 0 := by
      rw [hp]; unfold toChar; omega
    have h3 : toChar (s.sgbSyncCountdown - 1) ≠ 0 := by
      rw [hj]; unfold toChar; omega
    have h4 : toChar (s.sgbSyncCountdown - 1) = ((j - 1 : Nat) : Int) := by
      rw [hj]; unfold toChar; omega
    have h5 : toChar (s.sgbNetUpdateRate : Int) = (r : Int) := by
      rw [hrate]; unfold toChar; omega
    simp only [nthread_recv_turns, h1, if_false, h3, ne_eq, not_false_eq_true, if_true]
    exact ⟨trivial, ⟨_, rfl⟩, hrate, Or.inr ⟨hp1, h5, h4⟩⟩

/-- With both countdowns at 1 the poll calls `SNetReceiveTurns` first. -/
theorem recv_turns_fire (codes : StormCodes) (s : NState) (env : RecvEnv)
    (pfSendAsync : Option Bool)
    (hj : s.sgbSyncCountdown = 1) (hp : s.sgbPacketCountdown = 1) :
    ∃ rest, (nthread_recv_turns codes s env pfSendAsync).trace
      = Event.SNetReceiveTurns :: rest := by
  have h1 : ¬ toChar (s.sgbPacketCountdown - 1) > 0 := by
    rw [hp]; decide
  have h2 : toChar (s.sgbSyncCountdown - 1) = 0 := by
    rw [hj]; decide
  simp only [nthread_recv_turns, h1, if_false, h2, ne_eq, not_true_eq_false]
  split
  · split
    · split
      · exact ⟨_, rfl⟩
      · exact ⟨_, rfl⟩
    · exact ⟨_, rfl⟩
  · exact ⟨_, rfl⟩

/-- A poll that reaches a successful receive leaves the sync countdown at 4
and the packet countdown at the update rate. -/
theorem recv_turns_success (codes : StormCodes) (s : NState) (env : RecvEnv)
    (pfSendAsync : Option Bool) (hok : env.receiveOk = true)
    (hrecv : Event.SNetReceiveTurns ∈ (nthread_recv_turns codes s env pfSendAsync).trace) :
    (nthread_recv_turns codes s env pfSendAsync).state.sgbSyncCountdown = 4 ∧
      (nthread_recv_turns codes s env pfSendAsync).state.sgbPacketCountdown
        = toChar (s.sgbNetUpdateRate : Int) ∧
      (nthread_recv_turns codes s env pfSendAsync).state.sgbNetUpdateRate
        = s.sgbNetUpdateRate := by
  by_cases h1 : toChar (s.sgbPacketCountdown - 1) > 0
  · simp [nthread_recv_turns, h1] at hrecv
  · by_cases h2 : toChar (s.sgbSyncCountdown - 1) = 0
    · simp [nthread_recv_turns, h1, h2, hok]
    · simp [nthread_recv_turns, h1, h2] at hrecv

/-- A poll with both countdowns at 1 whose receive fails with "no messages
waiting". -/
theorem recv_turns_no_messages (codes : StormCodes) (s : NState) (env : RecvEnv)
    (pfSendAsync : Option Bool)
    (hj : s.sgbSyncCountdown = 1) (hp : s.sgbPacketCountdown = 1)
    (hfail : env.receiveOk = false)
    (herr : env.lastError = codes.STORM_ERROR_NO_MESSAGES_WAITING) :
    nthread_recv_turns codes s env pfSendAsync =
      { state := { s with sgbTicsOutOfSync := false, sgbSyncCountdown := 1,
                          sgbPacketCountdown := 1 },
        trace := [Event.SNetReceiveTurns],
        value := some (false, pfSendAsync.map (fun _ => false)) } := by
  have h1 : ¬ toChar (s.sgbPacketCountdown - 1) > 0 := by
    rw [hp]; decide
  have h2 : toChar (s.sgbSyncCountdown - 1) = 0 := by
    rw [hj]; decide
  simp [nthread_recv_turns, h1, h2, hfail, herr]

/-- The countdown to the next receive: from countdowns `j` and `p` with
`(j - 1) * r + p = n + 1`, the next `n` polls are quiet and the poll after
them calls `SNetReceiveTurns`. -/
theorem recv_polls_countdown (codes : StormCodes) (r : Nat) (hr : 1 ≤ r ∧ r ≤ 127)
    (n : Nat) :
    ∀ (s : NState) (j p : Nat) (polls : List (RecvEnv × Option Bool)),
      s.sgbNetUpdateRate = r → s.sgbSyncCountdown = (j : Int) →
      s.sgbPacketCountdown = (p : Int) → 1 ≤ j ∧ j ≤ 127 → 1 ≤ p ∧ p ≤ r →
      (j - 1) * r + p = n + 1 →
      min polls.length (n + 1) ≤ (recv_polls codes s polls).length ∧
      ∀ (k : Nat) (run : Run (Bool × Option Bool)),
        (recv_polls codes s polls)[k]? = some run →
        (k < n → run.trace = [] ∧ ∃ a, run.value = some (true, a)) ∧
        (k = n → Event.SNetReceiveTurns ∈ run.trace) := by
  induction n with
  | zero =>
    intro s j p polls hrate hj hp hj2 hp2 hm
    have hp1 : p = 1 := by
      rcases Nat.eq_zero_or_pos ((j - 1) * r) with h | h <;> omega
    have hj1 : j = 1 := by
      by_contra hne
      have : 1 ≤ j - 1 := by omega
      have : r ≤ (j - 1) * r := Nat.le_mul_of_pos_left r (by omega)
      omega
    cases polls with
    | nil => simp [recv_polls]
    | cons q qs =>
      refine ⟨by simp [recv_polls], fun k run hk => ⟨fun h => absurd h (by omega), ?_⟩⟩
      intro hk0
      subst hk0
      simp only [recv_polls, List.getElem?_cons_zero, Option.some.injEq] at hk
      subst hk
      obtain ⟨rest, hrest⟩ := recv_turns_fire codes s q.1 q.2
        (by rw [hj, hj1]; rfl) (by rw [hp, hp1]; rfl)
      rw [hrest]
      exact List.mem_cons_self _ _
  | succ n ih =>
    intro s j p polls hrate hj hp hj2 hp2 hm
    have hnot : 2 ≤ p ∨ 2 ≤ j := by
      by_contra hc
      have hp1 : p = 1 := by omega
      have hj1 : j = 1 := by omega
      subst hp1
      subst hj1
      simp at hm
    cases polls with
    | nil => simp [recv_polls]
    | cons q qs =>
      obtain ⟨ht, ⟨a, hv⟩, hrate1, hcase⟩ :=
        recv_turns_step codes s q.1 q.2 r j p hr hrate hj hp hj2 hp2 hnot
      have hrec : recv_polls codes s (q :: qs)
          = nthread_recv_turns codes s q.1 q.2
            :: recv_polls codes (nthread_recv_turns codes s q.1 q.2).state qs := by
        simp [recv_polls, hv]
      have hih : min qs.length (n + 1)
            ≤ (recv_polls codes (nthread_recv_turns codes s q.1 q.2).state qs).length ∧
          ∀ (k : Nat) (run : Run (Bool × Option Bool)),
            (recv_polls codes (nthread_recv_turns codes s q.1 q.2).state qs)[k]? = some run →
            (k < n → run.trace = [] ∧ ∃ a, run.value = some (true, a)) ∧
            (k = n → Event.SNetReceiveTurns ∈ run.trace) := by
        rcases hcase with ⟨h2, hp', hj'⟩ | ⟨h1, hp', hj'⟩
        · exact ih _ j (p - 1) qs hrate1 hj' hp' hj2 (by omega) (by omega)
        · refine ih _ (j - 1) r qs hrate1 hj' hp' (by omega) (by omega) ?_
          have e : j - 1 = (j - 1 - 1) + 1 := by omega
          rw [e, Nat.succ_mul] at hm
          omega
      rw [hrec]
      refine ⟨by simp only [List.length_cons]; omega, fun k run hk => ?_⟩
      cases k with
      | zero =>
        simp only [List.getElem?_cons_zero, Option.some.injEq] at hk
        subst hk
        exact ⟨fun _ => ⟨ht, a, hv⟩, fun h => absurd h (by omega)⟩
      | succ k =>
        rw [List.getElem?_cons_succ] at hk
        obtain ⟨g1, g2⟩ := hih.2 k run hk
        exact ⟨fun h => g1 (by omega), fun h => g2 (by omega)⟩

theorem recv_polls_length_le (codes : StormCodes) (polls : List (RecvEnv × Option Bool)) :
    ∀ (s : NState), (recv_polls codes s polls).length ≤ polls.length := by
  induction polls with
  | nil => intro s; simp [recv_polls]
  | cons q qs ih =>
    intro s
    simp only [recv_polls, List.length_cons]
    split
    · simp
    · have := ih (nthread_recv_turns codes s q.1 q.2).state
      omega

/-! ## The doubling loop and the pacing derivation -/

theorem grow_loop_zero_size (fuel rate : Nat) : grow_loop fuel 0 rate = none := by
  induction fuel generalizing rate with
  | zero => simp [grow_loop]
  | succ fuel ih =>
    rw [grow_loop]
    simpa using ih _

/-- The loop finishes as soon as the fuel covers the doublings that lead to
`0x80`. -/
theorem grow_loop_finishes (fuel : Nat) :
    ∀ (size rate : Nat), 128 ≤ size * 2 ^ fuel → ∃ p, grow_loop fuel size rate = some p := by
  induction fuel with
  | zero =>
    intro size rate h
    rw [grow_loop]
    have : ¬ size < 128 := by simpa using h
    simp [this]
  | succ fuel ih =>
    intro size rate h
    rw [grow_loop]
    by_cases hs : size < 128
    · simp only [hs, if_true]
      have e : size * 2 % 4294967296 = size * 2 := by omega
      rw [e]
      apply ih
      rw [Nat.pow_succ] at h
      calc 128 ≤ size * (2 ^ fuel * 2) := h
        _ = size * 2 * 2 ^ fuel := by ring
    · simp [hs]

/-- More fuel does not change the result of a loop that finishes. -/
theorem grow_loop_mono (fuel : Nat) :
    ∀ (size rate : Nat) (p : Nat × Nat), grow_loop fuel size rate = some p →
      ∀ fuel2, fuel ≤ fuel2 → grow_loop fuel2 size rate = some p := by
  induction fuel with
  | zero =>
    intro size rate p h fuel2 _
    rw [grow_loop] at h
    by_cases hs : size < 128
    · simp [hs] at h
    · unfold grow_loop
      simpa [hs] using h
  | succ fuel ih =>
    intro size rate p h fuel2 hle
    rw [grow_loop] at h
    by_cases hs : size < 128
    · simp only [hs, if_true] at h
      obtain ⟨f3, rfl⟩ : ∃ f3, fuel2 = f3 + 1 := ⟨fuel2 - 1, by omega⟩
      rw [grow_loop]
      simp only [hs, if_true]
      exact ih _ _ _ h f3 (by omega)
    · unfold grow_loop
      simpa [hs] using h

/-- The result of a loop that finishes: the size and the rate have been
doubled `k` times, the rate modulo 256, where `k` is the first number of
doublings that brings the size to `0x80`. -/
theorem grow_loop_spec (fuel : Nat) :
    ∀ (size rate : Nat) (p : Nat × Nat), rate < 256 → grow_loop fuel size rate = some p →
      ∃ k, k ≤ fuel ∧ p.1 = size * 2 ^ k ∧ p.2 = rate * 2 ^ k % 256 ∧ 128 ≤ p.1 ∧
        ∀ i, i < k → size * 2 ^ i < 128 := by
  induction fuel with
  | zero =>
    intro size rate p hr h
    rw [grow_loop] at h
    by_cases hs : size < 128
    · simp [hs] at h
    · simp only [hs, if_false, Option.some.injEq] at h
      subst h
      exact ⟨0, le_refl _, by simp, by simp; omega, by simp; omega, fun i hi => absurd hi (by omega)⟩
  | succ fuel ih =>
    intro size rate p hr h
    rw [grow_loop] at h
    by_cases hs : size < 128
    · simp only [hs, if_true] at h
      have e : size * 2 % 4294967296 = size * 2 := by omega
      rw [e] at h
      obtain ⟨k, hk, h1, h2, h3, h4⟩ := ih _ _ p (by unfold toByte; omega) h
      refine ⟨k + 1, by omega, ?_, ?_, h3, ?_⟩
      · rw [h1, Nat.pow_succ]; ring
      · rw [h2]
        unfold toByte
        rw [Nat.pow_succ, Nat.mod_mul_mod]
        congr 1
        ring
      · intro i hi
        cases i with
        | zero => simpa using hs
        | succ i =>
          have := h4 i (by omega)
          rw [Nat.pow_succ]
          calc size * (2 ^ i * 2) = size * 2 * 2 ^ i := by ring
            _ < 128 := this
    · simp only [hs, if_false, Option.some.injEq] at h
      subst h
      exact ⟨0, by omega, by simp, by simp; omega, by simp; omega, fun i hi => absurd hi (by omega)⟩

theorem start_rate_eq (caps : _SNETCAPS) :
    start_rate caps
      = (if 0 < caps.defaultturnssec ∧ caps.defaultturnssec ≤ 20 then
          20 / caps.defaultturnssec else 1) := by
  unfold start_rate toByte
  by_cases h : caps.defaultturnssec ≤ 20 ∧ caps.defaultturnssec ≠ 0
  · have h2 : 0 < caps.defaultturnssec ∧ caps.defaultturnssec ≤ 20 := by omega
    rw [if_pos h, if_pos h2]
    have h3 : 20 / caps.defaultturnssec ≤ 20 := Nat.div_le_self _ _
    exact Nat.mod_eq_of_lt (lt_of_le_of_lt h3 (by norm_num))
  · have h2 : ¬ (0 < caps.defaultturnssec ∧ caps.defaultturnssec ≤ 20) := by omega
    rw [if_neg h, if_neg h2]

theorem start_rate_bounds (caps : _SNETCAPS) :
    1 ≤ start_rate caps ∧ start_rate caps ≤ 20 := by
  rw [start_rate_eq]
  split
  · rename_i h
    have h1 : 20 / caps.defaultturnssec ≤ 20 := Nat.div_le_self _ _
    have h2 : 1 ≤ 20 / caps.defaultturnssec :=
      (Nat.one_le_div_iff h.1).mpr h.2
    exact ⟨h2, h1⟩
  · omega

theorem start_rate_not_mul_8 (caps : _SNETCAPS) : start_rate caps % 8 ≠ 0 := by
  rw [start_rate_eq]
  split
  · rename_i h
    obtain ⟨h1, h2⟩ := h
    generalize caps.defaultturnssec = d at h1 h2
    interval_cases d <;> decide
  · decide

/-- What a completed `nthread_start` has stored in the pacing globals. -/
theorem nthread_start_ok (MAX_PLRS fuel : Nat) (s : NState) (env : StartEnv) (b : Bool)
    (r : Run Unit) (h : nthread_start MAX_PLRS fuel s env b = Except.ok r) :
    start_players MAX_PLRS env.caps ≠ 0 ∧
    ∃ p, grow_loop fuel (start_msg_size MAX_PLRS env.caps) (start_rate env.caps) = some p ∧
      r.state.gdwTurnsInTransit
        = (if env.caps.defaultturnsintransit = 0 then 1 else env.caps.defaultturnsintransit) ∧
      r.state.sgbNetUpdateRate = p.2 ∧
      r.state.gdwLargestMsgSize = start_largest env.caps ∧
      r.state.gdwNormalMsgSize
        = (if p.1 > start_largest env.caps then start_largest env.caps else p.1) := by
  unfold nthread_start at h
  simp only [nthread_start_pacing_eq] at h
  by_cases hp : start_players MAX_PLRS env.caps = 0
  · simp [hp] at h
  · refine ⟨hp, ?_⟩
    simp only [hp, if_false] at h
    cases hg : grow_loop fuel (start_msg_size MAX_PLRS env.caps) (start_rate env.caps) with
    | none => simp [hg] at h
    | some p =>
      refine ⟨p, rfl, ?_⟩
      simp only [hg] at h
      cases h
      obtain ⟨-, h2, h3, h4, h5⟩ := nthread_start_thread_frame
        { (if b then nthread_set_turn_upper_bit
              { s with last_tick := toInt32 env.ticks, sgbPacketCountdown := 1,
                       sgbSyncCountdown := 1, sgbTicsOutOfSync := true }
            else { s with last_tick := toInt32 env.ticks, sgbPacketCountdown := 1,
                          sgbSyncCountdown := 1, sgbTicsOutOfSync := true,
                          turn_upper_bit := 0 }) with
          gdwTurnsInTransit :=
            if env.caps.defaultturnsintransit = 0 then 1 else env.caps.defaultturnsintransit,
          sgbNetUpdateRate := p.2,
          gdwDeltaBytesSec := env.caps.bytessec / 4,
          gdwLargestMsgSize := start_largest env.caps,
          gdwNormalMsgSize :=
            if p.1 > start_largest env.caps then start_largest env.caps else p.1 } env
      exact ⟨h2, h3, h4, h5⟩

/-- The function `nthread_start` reaches its end whenever the division is
defined and the doubling loop finishes. -/
theorem nthread_start_completes (MAX_PLRS fuel : Nat) (s : NState) (env : StartEnv)
    (b : Bool) (p : Nat × Nat) (hp : start_players MAX_PLRS env.caps ≠ 0)
    (hg : grow_loop fuel (start_msg_size MAX_PLRS env.caps) (start_rate env.caps) = some p) :
    ∃ r, ∀ fuel2, fuel ≤ fuel2 → nthread_start MAX_PLRS fuel2 s env b = Except.ok r := by
  have hall : ∀ fuel2, fuel ≤ fuel2 →
      nthread_start MAX_PLRS fuel2 s env b = nthread_start MAX_PLRS fuel s env b := by
    intro fuel2 hle
    have hg2 := grow_loop_mono fuel _ _ p hg fuel2 hle
    unfold nthread_start
    simp only [nthread_start_pacing_eq, hg, hg2]
  have hex : ∃ r, nthread_start MAX_PLRS fuel s env b = Except.ok r := by
    unfold nthread_start
    simp only [nthread_start_pacing_eq, hp, if_false, hg]
    exact ⟨_, rfl⟩
  obtain ⟨r, hr⟩ := hex
  exact ⟨r, fun fuel2 hle => by rw [hall fuel2 hle, hr]⟩

/-! ## C1: number of turns sent by one call -/

/-- C1: when the turns-in-transit query answers `c` and every send succeeds,
one call of `nthread_send_and_recv_turn` returns and hands exactly
`max(0, gdwTurnsInTransit - c)` turn messages to `SNetSendTurn` (so none when
`c >= gdwTurnsInTransit`). -/
theorem C1_sends_missing_turns (codes : StormCodes) (s : NState) (env : SendEnv)
    (curTurn : Nat) (turnDelta : Int) (c : Nat)
    (hq : env.turnsInTransit = some c) (hs : ∀ i, env.sendOk i = true) :
    ((sent_turns (nthread_send_and_recv_turn codes s env curTurn turnDelta).trace).length
        : Int) = max 0 ((s.gdwTurnsInTransit : Int) - (c : Int)) ∧
      (nthread_send_and_recv_turn codes s env curTurn turnDelta).value ≠ none := by
  obtain ⟨h1, v, h2, -, -⟩ :=
    send_loop_all_ok codes env turnDelta hs _ s c curTurn 0 rfl
  have hlen : (sent_turns
      (nthread_send_and_recv_turn codes s env curTurn turnDelta).trace).length
        = s.gdwTurnsInTransit - c := by
    simp [nthread_send_and_recv_turn, hq, sent_turns, h1]
  exact ⟨by rw [hlen]; omega, by simp [nthread_send_and_recv_turn, hq, h2]⟩

/-- C1 at target 3 with 1 turn in transit: two turns are sent. -/
theorem C1_sends_missing_turns_witness :
    ((sent_turns (nthread_send_and_recv_turn stormCodes { gdwTurnsInTransit := 3 }
        (sendEnvOk 1) 7 1).trace).length : Int)
        = max 0 ((({ gdwTurnsInTransit := 3 } : NState).gdwTurnsInTransit : Int) - ((1 : Nat) : Int)) ∧
      (nthread_send_and_recv_turn stormCodes { gdwTurnsInTransit := 3 }
        (sendEnvOk 1) 7 1).value ≠ none :=
  C1_sends_missing_turns stormCodes { gdwTurnsInTransit := 3 } (sendEnvOk 1) 7 1 1 rfl
    (fun _ => rfl)

/-! ## C2: the epoch bit of the turn messages -/

/-- C2: after `nthread_start(true)`, in the sequence of turn messages handed to
`SNetSendTurn` over any sequence of calls of `nthread_send_and_recv_turn` and
`nthread_recv_turns`, bit 31 is set in the first message and in no later one;
after `nthread_start(false)` it is set in no message. In both cases the `k`-th
message of every call carries, in its low 31 bits, the low 31 bits of the turn
counter after `k` advance steps. -/
theorem C2_epoch_bit_first_message_only (codes : StormCodes) (MAX_PLRS fuel : Nat)
    (s0 : NState) (env : StartEnv) (r : Run Unit) :
    (nthread_start MAX_PLRS fuel s0 env true = Except.ok r →
      ∀ (calls : List Call) (k m : Nat),
        (sent_turns (run_calls codes r.state calls).trace)[k]? = some m →
        (m.testBit 31 = true ↔ k = 0)) ∧
    (nthread_start MAX_PLRS fuel s0 env false = Except.ok r →
      ∀ (calls : List Call), ∀ m ∈ sent_turns (run_calls codes r.state calls).trace,
        m.testBit 31 = false) ∧
    (∀ b : Bool, nthread_start MAX_PLRS fuel s0 env b = Except.ok r →
      ∀ (calls : List Call) (senv : SendEnv) (curTurn : Nat) (turnDelta : Int) (k m : Nat),
        (sent_turns (nthread_send_and_recv_turn codes (run_calls codes r.state calls).state
          senv curTurn turnDelta).trace)[k]? = some m →
        m % 2147483648
          = ((fun x => advance_turn x turnDelta)^[k] curTurn) % 2147483648) := by
  refine ⟨fun h calls k m hk => ?_, fun h calls => ?_, fun b h calls senv c d k m hk => ?_⟩
  · have hu := nthread_start_upper_bit _ _ _ _ _ _ h
    exact run_calls_bit_pending codes calls r.state (by simpa using hu) k m hk
  · have hu := nthread_start_upper_bit _ _ _ _ _ _ h
    exact (run_calls_bit_clear codes calls r.state (by simpa using hu)).2
  · have hu := nthread_start_upper_bit _ _ _ _ _ _ h
    have h0 : r.state.turn_upper_bit = 0 ∨ r.state.turn_upper_bit = 0x80000000 := by
      rw [hu]
      cases b
      · exact Or.inl rfl
      · exact Or.inr rfl
    have h1 := run_calls_upper_bit codes calls r.state h0
    rw [(send_and_recv_turn_messages codes _ senv c d).2 k m hk]
    apply encode_turn_low_bits
    by_cases hk0 : k = 0
    · simpa [hk0] using h1
    · simp [hk0]

/-- C2 on a session of one call that sends two turns, counter 5, step 1. -/
theorem C2_epoch_bit_first_message_only_witness :
    nthread_start 4 8 { } startEnvExample true = Except.ok startedExample ∧
      (sent_turns (run_calls stormCodes startedExample.state
        [Call.send_and_recv_turn (sendEnvOk 0) 5 1]).trace)[1]? = some 6 ∧
      ((6 : Nat).testBit 31 = true ↔ 1 = 0) := by
  have h : (sent_turns (run_calls stormCodes startedExample.state
      [Call.send_and_recv_turn (sendEnvOk 0) 5 1]).trace)[1]? = some 6 := by
    simp [run_calls, run_call, nthread_send_and_recv_turn, sendEnvOk, send_loop,
      startedExample, sent_turns, advance_turn, toUint32, encode_turn, and_0x7FFFFFFF]
  exact ⟨rfl, h, (C2_epoch_bit_first_message_only stormCodes 4 8 { } startEnvExample
    startedExample).1 rfl _ 1 6 h⟩

/-! ## C3 and C4: the advance step of the turn counter -/

/-- C3: for every counter value and every `turnDelta`, the counter after one
advance step (addition modulo `2^32`, then the boundary check) is strictly
below `0x7FFFFFFF`; so every call of `nthread_send_and_recv_turn` that sends at
least one turn, with all sends succeeding, returns a value below `0x7FFFFFFF`,
from every state and for every argument. -/
theorem C3_advance_below_boundary :
    (∀ (curTurn : Nat) (turnDelta : Int), advance_turn curTurn turnDelta < 0x7FFFFFFF) ∧
    (∀ (codes : StormCodes) (s : NState) (env : SendEnv) (curTurn : Nat) (turnDelta : Int)
      (c : Nat), env.turnsInTransit = some c → c < s.gdwTurnsInTransit →
      (∀ i, env.sendOk i = true) →
      ∃ v, (nthread_send_and_recv_turn codes s env curTurn turnDelta).value = some v ∧
        v < 0x7FFFFFFF) := by
  refine ⟨advance_turn_lt, ?_⟩
  intro codes s env curTurn turnDelta c hq hc hs
  obtain ⟨-, v, h2, h3, -⟩ := send_loop_all_ok codes env turnDelta hs _ s c curTurn 0 rfl
  exact ⟨v, by simp [nthread_send_and_recv_turn, hq, h2], h3 hc⟩

/-- C3 at the counter `0xFFFFFFF0` with step 1 and two missing turns. -/
theorem C3_advance_below_boundary_witness :
    ∃ v, (nthread_send_and_recv_turn stormCodes { gdwTurnsInTransit := 3 } (sendEnvOk 1)
        0xFFFFFFF0 1).value = some v ∧ v < 0x7FFFFFFF :=
  C3_advance_below_boundary.2 stormCodes { gdwTurnsInTransit := 3 } (sendEnvOk 1)
    0xFFFFFFF0 1 1 rfl (by decide) (fun _ => rfl)

/-- C4 as stated fails: from `0x7FFFFFFE` with step 2 the sum is `0x80000000`,
which is at the boundary, and the advance step produces 0, not `0xFFFF`. -/
theorem C4_wrap_value_counterexample :
    toUint32 (((0x7FFFFFFE : Nat) : Int) + 2) ≥ 0x7FFFFFFF ∧
      advance_turn 0x7FFFFFFE 2 = 0 ∧ advance_turn 0x7FFFFFFE 2 ≠ 0xFFFF := by
  decide

/-- C4 (amended): whenever the sum `curTurn + turnDelta` modulo `2^32` is at
least `0x7FFFFFFF`, the advance step produces the low 16 bits of that sum, a
value of at most `0xFFFF`; it produces exactly `0xFFFF` when the sum is exactly
`0x7FFFFFFF`. -/
theorem C4_wrap_keeps_low_16_bits (curTurn : Nat) (turnDelta : Int)
    (h : toUint32 ((curTurn : Int) + turnDelta) ≥ 0x7FFFFFFF) :
    advance_turn curTurn turnDelta = toUint32 ((curTurn : Int) + turnDelta) % 65536 ∧
      advance_turn curTurn turnDelta ≤ 0xFFFF ∧
      (toUint32 ((curTurn : Int) + turnDelta) = 0x7FFFFFFF →
        advance_turn curTurn turnDelta = 0xFFFF) := by
  have hadv : advance_turn curTurn turnDelta
      = toUint32 ((curTurn : Int) + turnDelta) % 65536 := by
    unfold advance_turn
    simp only [h, if_true]
    exact and_0xFFFF _
  refine ⟨hadv, by rw [hadv]; omega, fun heq => ?_⟩
  rw [hadv, heq]

/-- C4 (amended) at `0x7FFFFFFE` with step 1: the sum is exactly `0x7FFFFFFF`. -/
theorem C4_wrap_keeps_low_16_bits_witness :
    toUint32 (((0x7FFFFFFE : Nat) : Int) + 1) ≥ 0x7FFFFFFF ∧
      advance_turn 0x7FFFFFFE 1 = toUint32 (((0x7FFFFFFE : Nat) : Int) + 1) % 65536 ∧
      advance_turn 0x7FFFFFFE 1 ≤ 0xFFFF ∧
      advance_turn 0x7FFFFFFE 1 = 0xFFFF :=
  ⟨by decide, (C4_wrap_keeps_low_16_bits 0x7FFFFFFE 1 (by decide)).1,
    (C4_wrap_keeps_low_16_bits 0x7FFFFFFE 1 (by decide)).2.1,
    (C4_wrap_keeps_low_16_bits 0x7FFFFFFE 1 (by decide)).2.2 (by decide)⟩

/-! ## C5 and C6: sequences of polls -/

/-- C5: let `r = sgbNetUpdateRate` with `1 <= r <= 127` and take the state left
by a poll of `nthread_recv_turns` whose network receive succeeded; there
`sgbSyncCountdown = 4` and `sgbPacketCountdown = r`. Of the next `4 * r` polls
all run, each of the first `4 * r - 1` returns `true` without any outside call
(so without `SNetReceiveTurns`), and poll number `4 * r` calls
`SNetReceiveTurns`. -/
theorem C5_receive_every_4r_polls (codes : StormCodes) (s0 : NState) (env0 : RecvEnv)
    (pf0 : Option Bool) (polls : List (RecvEnv × Option Bool))
    (hr : 1 ≤ s0.sgbNetUpdateRate ∧ s0.sgbNetUpdateRate ≤ 127)
    (hok : env0.receiveOk = true)
    (hrecv : Event.SNetReceiveTurns ∈ (nthread_recv_turns codes s0 env0 pf0).trace)
    (hlen : polls.length = 4 * s0.sgbNetUpdateRate) :
    (nthread_recv_turns codes s0 env0 pf0).state.sgbSyncCountdown = 4 ∧
    (nthread_recv_turns codes s0 env0 pf0).state.sgbPacketCountdown
      = (s0.sgbNetUpdateRate : Int) ∧
    (recv_polls codes (nthread_recv_turns codes s0 env0 pf0).state polls).length
      = 4 * s0.sgbNetUpdateRate ∧
    ∀ (k : Nat) (run : Run (Bool × Option Bool)),
      (recv_polls codes (nthread_recv_turns codes s0 env0 pf0).state polls)[k]? = some run →
      (k + 1 < 4 * s0.sgbNetUpdateRate →
        run.trace = [] ∧ ∃ a, run.value = some (true, a)) ∧
      (k + 1 = 4 * s0.sgbNetUpdateRate → Event.SNetReceiveTurns ∈ run.trace) := by
  obtain ⟨h1, h2, h3⟩ := recv_turns_success codes s0 env0 pf0 hok hrecv
  have h2' : (nthread_recv_turns codes s0 env0 pf0).state.sgbPacketCountdown
      = (s0.sgbNetUpdateRate : Int) := by
    rw [h2]; unfold toChar; omega
  obtain ⟨g1, g2⟩ := recv_polls_countdown codes s0.sgbNetUpdateRate hr
    (4 * s0.sgbNetUpdateRate - 1) (nthread_recv_turns codes s0 env0 pf0).state 4
    s0.sgbNetUpdateRate polls h3 (by rw [h1]; rfl) h2' (by omega) (by omega) (by omega)
  have g3 := recv_polls_length_le codes polls (nthread_recv_turns codes s0 env0 pf0).state
  refine ⟨h1, h2', by omega, fun k run hk => ?_⟩
  obtain ⟨q1, q2⟩ := g2 k run hk
  exact ⟨fun h => q1 (by omega), fun h => q2 (by omega)⟩

/-- C5 at update rate 2: the eighth poll after a successful receive is the
next one that receives. -/
theorem C5_receive_every_4r_polls_witness :
    (1 ≤ pollStateExample.sgbNetUpdateRate ∧ pollStateExample.sgbNetUpdateRate ≤ 127) ∧
    recvEnvOk.receiveOk = true ∧
    Event.SNetReceiveTurns ∈ (nthread_recv_turns stormCodes pollStateExample recvEnvOk
      none).trace ∧
    (List.replicate 8 (recvEnvOk, (none : Option Bool))).length
      = 4 * pollStateExample.sgbNetUpdateRate ∧
    (nthread_recv_turns stormCodes pollStateExample recvEnvOk none).state.sgbSyncCountdown
      = 4 ∧
    (nthread_recv_turns stormCodes pollStateExample recvEnvOk none).state.sgbPacketCountdown
      = (pollStateExample.sgbNetUpdateRate : Int) ∧
    (recv_polls stormCodes (nthread_recv_turns stormCodes pollStateExample recvEnvOk
      none).state (List.replicate 8 (recvEnvOk, none))).length
      = 4 * pollStateExample.sgbNetUpdateRate ∧
    ∀ (k : Nat) (run : Run (Bool × Option Bool)),
      (recv_polls stormCodes (nthread_recv_turns stormCodes pollStateExample recvEnvOk
        none).state (List.replicate 8 (recvEnvOk, none)))[k]? = some run →
      (k + 1 < 4 * pollStateExample.sgbNetUpdateRate →
        run.trace = [] ∧ ∃ a, run.value = some (true, a)) ∧
      (k + 1 = 4 * pollStateExample.sgbNetUpdateRate →
        Event.SNetReceiveTurns ∈ run.trace) :=
  ⟨by decide, rfl, by decide, rfl,
    C5_receive_every_4r_polls stormCodes pollStateExample recvEnvOk none
      (List.replicate 8 (recvEnvOk, none)) (by decide) rfl (by decide) rfl⟩

/-- C6: from a state in which the next poll reaches the network receive
(`sgbPacketCountdown = 1`, `sgbSyncCountdown = 1`), when `SNetReceiveTurns` fails
with `STORM_ERROR_NO_MESSAGES_WAITING` on every one of any number of
consecutive polls, every poll runs, makes the call `SNetReceiveTurns` and no
other (no `nthread_terminate_game`, no `app_fatal`), returns `false`, and leaves
both countdowns at 1 and `last_tick` and `gbGameDestroyed` as they were. -/
theorem C6_no_messages_waiting_polls (codes : StormCodes) (s : NState)
    (polls : List (RecvEnv × Option Bool))
    (hp : s.sgbPacketCountdown = 1) (hj : s.sgbSyncCountdown = 1)
    (hfail : ∀ q ∈ polls, q.1.receiveOk = false ∧
      q.1.lastError = codes.STORM_ERROR_NO_MESSAGES_WAITING) :
    (recv_polls codes s polls).length = polls.length ∧
    ∀ run ∈ recv_polls codes s polls,
      run.trace = [Event.SNetReceiveTurns] ∧
      (∃ a, run.value = some (false, a)) ∧
      run.state.sgbPacketCountdown = 1 ∧ run.state.sgbSyncCountdown = 1 ∧
      run.state.last_tick = s.last_tick ∧
      run.state.gbGameDestroyed = s.gbGameDestroyed := by
  induction polls generalizing s with
  | nil => simp [recv_polls]
  | cons q qs ih =>
    obtain ⟨hq1, hq2⟩ := hfail q (List.mem_cons_self _ _)
    have hrun := recv_turns_no_messages codes s q.1 q.2 hj hp hq1 hq2
    have hrec : recv_polls codes s (q :: qs)
        = nthread_recv_turns codes s q.1 q.2
          :: recv_polls codes (nthread_recv_turns codes s q.1 q.2).state qs := by
      simp [recv_polls, hrun]
    obtain ⟨ih1, ih2⟩ := ih (nthread_recv_turns codes s q.1 q.2).state
      (by rw [hrun]) (by rw [hrun]) (fun q' hq' => hfail q' (List.mem_cons_of_mem _ hq'))
    rw [hrec]
    refine ⟨by simp [ih1], fun run hmem => ?_⟩
    rcases List.mem_cons.mp hmem with h | h
    · rw [h, hrun]
      exact ⟨rfl, ⟨_, rfl⟩, rfl, rfl, rfl, rfl⟩
    · obtain ⟨a1, a2, a3, a4, a5, a6⟩ := ih2 run h
      refine ⟨a1, a2, a3, a4, ?_, ?_⟩
      · rw [a5, hrun]
      · rw [a6, hrun]

/-- C6 on three consecutive polls without messages. -/
theorem C6_no_messages_waiting_polls_witness :
    noMessagesState.sgbPacketCountdown = 1 ∧ noMessagesState.sgbSyncCountdown = 1 ∧
    (∀ q ∈ [(recvEnvNoMessages, (none : Option Bool)), (recvEnvNoMessages, none),
        (recvEnvNoMessages, none)],
      q.1.receiveOk = false ∧
      q.1.lastError = stormCodes.STORM_ERROR_NO_MESSAGES_WAITING) ∧
    (recv_polls stormCodes noMessagesState [(recvEnvNoMessages, none),
      (recvEnvNoMessages, none), (recvEnvNoMessages, none)]).length = 3 ∧
    ∀ run ∈ recv_polls stormCodes noMessagesState [(recvEnvNoMessages, none),
        (recvEnvNoMessages, none), (recvEnvNoMessages, none)],
      run.trace = [Event.SNetReceiveTurns] ∧
      (∃ a, run.value = some (false, a)) ∧
      run.state.sgbPacketCountdown = 1 ∧ run.state.sgbSyncCountdown = 1 ∧
      run.state.last_tick = noMessagesState.last_tick ∧
      run.state.gbGameDestroyed = noMessagesState.gbGameDestroyed := by
  have hq : ∀ q ∈ [(recvEnvNoMessages, (none : Option Bool)), (recvEnvNoMessages, none),
      (recvEnvNoMessages, none)],
      q.1.receiveOk = false ∧
      q.1.lastError = stormCodes.STORM_ERROR_NO_MESSAGES_WAITING := by
    intro q hq
    simp only [List.mem_cons, List.mem_singleton, List.not_mem_nil, or_false, or_self] at hq
    rw [hq]
    exact ⟨rfl, rfl⟩
  exact ⟨rfl, rfl, hq,
    C6_no_messages_waiting_polls stormCodes noMessagesState _ rfl rfl hq⟩

/-! ## C7: classification of the transport error -/

/-- C7: `nthread_terminate_game(pszFcn)` with last transport error `e`, the
codes being distinct: for `STORM_ERROR_INVALID_PLAYER` it returns with all
globals (so `gbGameDestroyed`) unchanged and without `app_fatal`; for
`STORM_ERROR_GAME_TERMINATED` and `STORM_ERROR_NOT_IN_GAME` it returns with
`gbGameDestroyed` set and without `app_fatal`; for every other `e` it calls
`app_fatal`, which ends the process, with a message that begins with `pszFcn`.
So `app_fatal` is called exactly when `e` is none of the three codes. -/
theorem C7_terminate_game_classification (codes : StormCodes) (hd : codes.Distinct)
    (s : NState) (pszFcn : String) (e : Nat) (sdlError : String) :
    (e = codes.STORM_ERROR_INVALID_PLAYER →
      nthread_terminate_game codes s pszFcn e sdlError
        = { state := s, trace := [Event.nthread_terminate_game pszFcn],
            value := some () }) ∧
    (e = codes.STORM_ERROR_GAME_TERMINATED ∨ e = codes.STORM_ERROR_NOT_IN_GAME →
      nthread_terminate_game codes s pszFcn e sdlError
        = { state := { s with gbGameDestroyed := true },
            trace := [Event.nthread_terminate_game pszFcn], value := some () }) ∧
    (e ≠ codes.STORM_ERROR_INVALID_PLAYER ∧ e ≠ codes.STORM_ERROR_GAME_TERMINATED ∧
        e ≠ codes.STORM_ERROR_NOT_IN_GAME →
      ∃ rest : String,
        nthread_terminate_game codes s pszFcn e sdlError
          = { state := s,
              trace := [Event.nthread_terminate_game pszFcn,
                        Event.app_fatal (pszFcn ++ rest)],
              value := none }) ∧
    ((∃ msg, Event.app_fatal msg ∈ (nthread_terminate_game codes s pszFcn e sdlError).trace) ↔
      (e ≠ codes.STORM_ERROR_INVALID_PLAYER ∧ e ≠ codes.STORM_ERROR_GAME_TERMINATED ∧
        e ≠ codes.STORM_ERROR_NOT_IN_GAME)) := by
  obtain ⟨hd1, hd2⟩ := hd
  have hA : e = codes.STORM_ERROR_INVALID_PLAYER →
      nthread_terminate_game codes s pszFcn e sdlError
        = { state := s, trace := [Event.nthread_terminate_game pszFcn],
            value := some () } := by
    intro h
    simp [nthread_terminate_game, h]
  have hB : e = codes.STORM_ERROR_GAME_TERMINATED ∨ e = codes.STORM_ERROR_NOT_IN_GAME →
      nthread_terminate_game codes s pszFcn e sdlError
        = { state := { s with gbGameDestroyed := true },
            trace := [Event.nthread_terminate_game pszFcn], value := some () } := by
    intro h
    have hne : e ≠ codes.STORM_ERROR_INVALID_PLAYER := by
      rcases h with h | h
      · rw [h]; exact fun h' => hd1 h'.symm
      · rw [h]; exact fun h' => hd2 h'.symm
    have hn : ¬ (e ≠ codes.STORM_ERROR_GAME_TERMINATED ∧ e ≠ codes.STORM_ERROR_NOT_IN_GAME) := by
      rcases h with h | h
      · exact fun h' => h'.1 h
      · exact fun h' => h'.2 h
    unfold nthread_terminate_game
    rw [if_neg hne, if_neg hn]
  have hC : e ≠ codes.STORM_ERROR_INVALID_PLAYER ∧ e ≠ codes.STORM_ERROR_GAME_TERMINATED ∧
        e ≠ codes.STORM_ERROR_NOT_IN_GAME →
      nthread_terminate_game codes s pszFcn e sdlError
          = { state := s,
              trace := [Event.nthread_terminate_game pszFcn,
                        Event.app_fatal (pszFcn ++ (":\n" ++ sdlError))],
              value := none } := by
    intro h
    unfold nthread_terminate_game
    rw [if_neg h.1, if_pos h.2]
    simp [app_fatal, fmt_fcn_error, String.append_assoc]
  refine ⟨hA, hB, fun h => ⟨_, hC h⟩, ?_, fun h => ?_⟩
  · rintro ⟨msg, hmsg⟩
    by_contra hcon
    by_cases h1 : e = codes.STORM_ERROR_INVALID_PLAYER
    · rw [hA h1] at hmsg
      simp at hmsg
    · by_cases h2 : e = codes.STORM_ERROR_GAME_TERMINATED ∨ e = codes.STORM_ERROR_NOT_IN_GAME
      · rw [hB h2] at hmsg
        simp at hmsg
      · exact hcon ⟨h1, fun h => h2 (Or.inl h), fun h => h2 (Or.inr h)⟩
  · rw [hC h]
    exact ⟨pszFcn ++ (":\n" ++ sdlError), by simp⟩

/-- C7 at an error code that is none of the three: `SNetSendTurn` is reported
through `app_fatal`. -/
theorem C7_terminate_game_classification_witness :
    stormCodes.Distinct ∧
    ((5 : Nat) ≠ stormCodes.STORM_ERROR_INVALID_PLAYER ∧
      5 ≠ stormCodes.STORM_ERROR_GAME_TERMINATED ∧
      5 ≠ stormCodes.STORM_ERROR_NOT_IN_GAME) ∧
    ∃ rest : String,
      nthread_terminate_game stormCodes { } "SNetSendTurn" 5 "connection lost"
        = { state := { },
            trace := [Event.nthread_terminate_game "SNetSendTurn",
                      Event.app_fatal ("SNetSendTurn" ++ rest)],
            value := none } :=
  ⟨by decide, by decide,
    (C7_terminate_game_classification stormCodes (by decide) { } "SNetSendTurn" 5
      "connection lost").2.2.1 (by decide)⟩

/-! ## C8, C9 and C10: the pacing derivation of `nthread_start` -/

/-- C8: whenever `nthread_start` completes, `gdwNormalMsgSize <= gdwLargestMsgSize`,
`gdwLargestMsgSize = min(512, caps.maxmessagesize)`, and `gdwNormalMsgSize >= 128`
whenever `gdwLargestMsgSize >= 128`. For `bytessec = 4800`, `defaultturnssec = 20`,
`maxmessagesize = 512`, `maxplayers = 4` (with a player ceiling `MAX_PLRS` of at
least 4, and fuel for two doublings) it completes with `gdwNormalMsgSize = 180`,
which lies between 128 and 512, and `sgbNetUpdateRate = 4 = 2^2`. -/
theorem C8_message_size_bounds :
    (∀ (MAX_PLRS fuel : Nat) (s : NState) (env : StartEnv) (b : Bool) (r : Run Unit),
      nthread_start MAX_PLRS fuel s env b = Except.ok r →
      r.state.gdwNormalMsgSize ≤ r.state.gdwLargestMsgSize ∧
      r.state.gdwLargestMsgSize = min 512 env.caps.maxmessagesize ∧
      (128 ≤ r.state.gdwLargestMsgSize → 128 ≤ r.state.gdwNormalMsgSize)) ∧
    (∀ (MAX_PLRS fuel : Nat) (s : NState) (env : StartEnv) (b : Bool),
      4 ≤ MAX_PLRS → 2 ≤ fuel →
      env.caps.bytessec = 4800 → env.caps.defaultturnssec = 20 →
      env.caps.maxmessagesize = 512 → env.caps.maxplayers = 4 →
      ∃ r, nthread_start MAX_PLRS fuel s env b = Except.ok r ∧
        r.state.gdwNormalMsgSize = 180 ∧ 128 ≤ r.state.gdwNormalMsgSize ∧
        r.state.gdwNormalMsgSize ≤ 512 ∧
        r.state.sgbNetUpdateRate = 4 ∧ r.state.sgbNetUpdateRate = 2 ^ 2) := by
  constructor
  · intro MAX_PLRS fuel s env b r h
    obtain ⟨-, p, hg, -, -, h3, h4⟩ := nthread_start_ok _ _ _ _ _ _ h
    obtain ⟨k, -, -, -, h128, -⟩ := grow_loop_spec fuel _ _ p
      (lt_of_le_of_lt (start_rate_bounds env.caps).2 (by norm_num)) hg
    have hl : start_largest env.caps = min 512 env.caps.maxmessagesize := by
      unfold start_largest
      split <;> omega
    rw [h3, h4]
    refine ⟨?_, hl, fun h => ?_⟩
    · split <;> omega
    · split <;> omega
  · intro MAX_PLRS fuel s env b hM hf h1 h2 h3 h4
    have hrate : start_rate env.caps = 1 := by
      rw [start_rate_eq, h2]; decide
    have hplayers : start_players MAX_PLRS env.caps = 4 := by
      unfold start_players
      rw [h4]
      split <;> omega
    have hsize : start_msg_size MAX_PLRS env.caps = 45 := by
      unfold start_msg_size
      rw [hrate, hplayers, h1]
      decide
    have hg : grow_loop 2 (start_msg_size MAX_PLRS env.caps) (start_rate env.caps)
        = some (180, 4) := by
      rw [hsize, hrate]; decide
    obtain ⟨r, hr⟩ := nthread_start_completes MAX_PLRS 2 s env b (180, 4)
      (by rw [hplayers]; decide) hg
    have hrun := hr fuel hf
    obtain ⟨-, p, hg2, -, q2, q3, q4⟩ := nthread_start_ok _ _ _ _ _ _ (hr 2 (le_refl _))
    rw [hg] at hg2
    cases hg2
    have hl : start_largest env.caps = 512 := by
      unfold start_largest
      rw [h3]; decide
    rw [hl] at q4
    simp only at q4 q2
    have q5 : r.state.gdwNormalMsgSize = 180 := by rw [q4]; decide
    exact ⟨r, hrun, q5, by omega, by omega, q2, by rw [q2]; decide⟩

/-- C8 for the pacing scenario with `MAX_PLRS = 4`. -/
theorem C8_message_size_bounds_witness :
    nthread_start 4 8 { } startEnvExample true = Except.ok startedExample ∧
    (startedExample.state.gdwNormalMsgSize ≤ startedExample.state.gdwLargestMsgSize ∧
      startedExample.state.gdwLargestMsgSize = min 512 startEnvExample.caps.maxmessagesize ∧
      128 ≤ startedExample.state.gdwNormalMsgSize) ∧
    ∃ r, nthread_start 4 8 { } startEnvExample true = Except.ok r ∧
        r.state.gdwNormalMsgSize = 180 ∧ 128 ≤ r.state.gdwNormalMsgSize ∧
        r.state.gdwNormalMsgSize ≤ 512 ∧
        r.state.sgbNetUpdateRate = 4 ∧ r.state.sgbNetUpdateRate = 2 ^ 2 :=
  ⟨rfl,
    ⟨(C8_message_size_bounds.1 4 8 { } startEnvExample true startedExample rfl).1,
      (C8_message_size_bounds.1 4 8 { } startEnvExample true startedExample rfl).2.1,
      (C8_message_size_bounds.1 4 8 { } startEnvExample true startedExample rfl).2.2
        (by decide)⟩,
    C8_message_size_bounds.2 4 8 { } startEnvExample true (by decide) (by decide)
      rfl rfl rfl rfl⟩

/-- C9 as stated fails: with `bytessec = 4`, `defaultturnssec = 1` and one player
the message size enters the loop as 3 and is doubled six times, which takes
`sgbNetUpdateRate` from 20 to `20 * 64 mod 256 = 0`. -/
theorem C9_update_rate_counterexample :
    ∃ r, nthread_start 4 7 { } startEnvTiny true = Except.ok r ∧
      r.state.sgbNetUpdateRate = 0 ∧ ¬ 1 ≤ r.state.sgbNetUpdateRate :=
  ⟨_, rfl, rfl, by decide⟩

/-- C9 (amended): whenever `nthread_start` completes, `gdwTurnsInTransit >= 1` (it
is `caps.defaultturnsintransit` when that is nonzero and 1 otherwise), and
`sgbNetUpdateRate` is an 8-bit value: the start value, which is
`20 / defaultturnssec` when `0 < defaultturnssec <= 20` and 1 otherwise, doubled
modulo 256 once for each of the `k <= 7` doublings of the message size. It is at
least 1 whenever the message size with which the loop is entered is at least
4. -/
theorem C9_pacing_parameters (MAX_PLRS fuel : Nat) (s : NState) (env : StartEnv) (b : Bool)
    (r : Run Unit) (h : nthread_start MAX_PLRS fuel s env b = Except.ok r) :
    1 ≤ r.state.gdwTurnsInTransit ∧
    (env.caps.defaultturnsintransit ≠ 0 →
      r.state.gdwTurnsInTransit = env.caps.defaultturnsintransit) ∧
    (env.caps.defaultturnsintransit = 0 → r.state.gdwTurnsInTransit = 1) ∧
    r.state.sgbNetUpdateRate < 256 ∧
    start_rate env.caps
      = (if 0 < env.caps.defaultturnssec ∧ env.caps.defaultturnssec ≤ 20 then
          20 / env.caps.defaultturnssec else 1) ∧
    (∃ k, k ≤ 7 ∧
      r.state.sgbNetUpdateRate = start_rate env.caps * 2 ^ k % 256 ∧
      128 ≤ start_msg_size MAX_PLRS env.caps * 2 ^ k ∧
      ∀ i, i < k → start_msg_size MAX_PLRS env.caps * 2 ^ i < 128) ∧
    (4 ≤ start_msg_size MAX_PLRS env.caps → 1 ≤ r.state.sgbNetUpdateRate) := by
  obtain ⟨-, p, hg, h1, h2, -, -⟩ := nthread_start_ok _ _ _ _ _ _ h
  have hrb := start_rate_bounds env.caps
  obtain ⟨k, -, hk1, hk2, hk3, hk4⟩ := grow_loop_spec fuel _ _ p
    (lt_of_le_of_lt hrb.2 (by norm_num)) hg
  have hsize : start_msg_size MAX_PLRS env.caps ≠ 0 := by
    intro h0
    rw [h0, grow_loop_zero_size] at hg
    cases hg
  have hk7 : k ≤ 7 := by
    by_contra hcon
    have h7 := hk4 7 (by omega)
    norm_num at h7
    omega
  refine ⟨?_, fun hne => ?_, fun he => ?_, ?_, start_rate_eq env.caps,
    ⟨k, hk7, by rw [h2, hk2], by rw [← hk1]; exact hk3, hk4⟩, fun h4 => ?_⟩
  · rw [h1]; split <;> omega
  · rw [h1, if_neg hne]
  · rw [h1, if_pos he]
  · rw [h2, hk2]; exact Nat.mod_lt _ (by norm_num)
  · have hk5 : k ≤ 5 := by
      by_contra hcon
      have h5 := hk4 5 (by omega)
      norm_num at h5
      omega
    rw [h2, hk2]
    have h8 := start_rate_not_mul_8 env.caps
    generalize start_rate env.caps = q at hrb h8
    obtain ⟨hq1, hq2⟩ := hrb
    interval_cases k <;> omega

/-- C9 (amended) for the pacing scenario. -/
theorem C9_pacing_parameters_witness :
    nthread_start 4 8 { } startEnvExample true = Except.ok startedExample ∧
    startEnvExample.caps.defaultturnsintransit ≠ 0 ∧
    4 ≤ start_msg_size 4 startEnvExample.caps ∧
    1 ≤ startedExample.state.gdwTurnsInTransit ∧
    startedExample.state.gdwTurnsInTransit = startEnvExample.caps.defaultturnsintransit ∧
    startedExample.state.sgbNetUpdateRate < 256 ∧
    1 ≤ startedExample.state.sgbNetUpdateRate :=
  ⟨rfl, by decide, by decide,
    (C9_pacing_parameters 4 8 { } startEnvExample true startedExample rfl).1,
    (C9_pacing_parameters 4 8 { } startEnvExample true startedExample rfl).2.1 (by decide),
    (C9_pacing_parameters 4 8 { } startEnvExample true startedExample rfl).2.2.2.1,
    (C9_pacing_parameters 4 8 { } startEnvExample true startedExample rfl).2.2.2.2.2.2
      (by decide)⟩

/-- C10 as stated fails: when the provider reports `maxplayers = 0` the division
by the player count has divisor zero, and when it reports `bytessec = 0` the
message size enters the loop as 0, stays 0 when doubled, and the loop has not
finished after any number of iterations. -/
theorem C10_pacing_completes_counterexample :
    (∀ fuel, nthread_start 4 fuel { } startEnvNoPlayers true
      = Except.error Fault.divisionByZero) ∧
    (∀ fuel, nthread_start 4 fuel { } startEnvNoBytes true
      = Except.error Fault.loopNotFinished) := by
  constructor
  · intro fuel
    have hp : start_players 4 startEnvNoPlayers.caps = 0 := by decide
    unfold nthread_start
    simp only [nthread_start_pacing_eq, hp, if_true]
  · intro fuel
    have hp : ¬ start_players 4 startEnvNoBytes.caps = 0 := by decide
    have hs : start_msg_size 4 startEnvNoBytes.caps = 0 := by decide
    unfold nthread_start
    simp only [nthread_start_pacing_eq, hp, if_false, hs, grow_loop_zero_size]

/-- C10 (amended): for every capability set in which the clamped player count
`min(maxplayers, MAX_PLRS)` is nonzero and the message size with which the
doubling loop is entered (`bytessec * sgbNetUpdateRate / 20 * 3 / 4` divided by
the player count, in 32-bit arithmetic) is nonzero, `nthread_start` completes:
the division is defined and the loop terminates after at most 7 doublings, with
one and the same result for every fuel of at least 7. -/
theorem C10_pacing_completes (MAX_PLRS : Nat) (s : NState) (env : StartEnv) (b : Bool)
    (hp : start_players MAX_PLRS env.caps ≠ 0)
    (hs : start_msg_size MAX_PLRS env.caps ≠ 0) :
    start_players MAX_PLRS env.caps = min env.caps.maxplayers MAX_PLRS ∧
    ∃ r, ∀ fuel, 7 ≤ fuel → nthread_start MAX_PLRS fuel s env b = Except.ok r := by
  constructor
  · unfold start_players
    split <;> omega
  · obtain ⟨p, hg⟩ := grow_loop_finishes 7 (start_msg_size MAX_PLRS env.caps)
      (start_rate env.caps) (by omega)
    exact nthread_start_completes MAX_PLRS 7 s env b p hp hg

/-- C10 (amended) for the pacing scenario. -/
theorem C10_pacing_completes_witness :
    start_players 4 startEnvExample.caps ≠ 0 ∧
    start_msg_size 4 startEnvExample.caps ≠ 0 ∧
    start_players 4 startEnvExample.caps = min startEnvExample.caps.maxplayers 4 ∧
    ∃ r, ∀ fuel, 7 ≤ fuel → nthread_start 4 fuel { } startEnvExample true = Except.ok r :=
  ⟨by decide, by decide,
    C10_pacing_completes 4 { } startEnvExample true (by decide) (by decide)⟩

/-! ## C11 and C12: `nthread_has_500ms_passed` -/

theorem toInt32_of_range (x : Int) (h1 : -2147483648 ≤ x) (h2 : x < 2147483648) :
    toInt32 x = x := by
  unfold toInt32
  omega

/-- C11 as stated fails: in single-player mode with `last_tick = 0`,
`gnTickDelay = 50` and the tick count 1000 the gap 1000 exceeds `10 * 50`, and
`nthread_has_500ms_passed` returns `true`, not `false`. -/
theorem C11_long_gap_counterexample :
    pausedState.gbIsMultiplayer = false ∧
    toInt32 (1000 : Nat) - pausedState.last_tick > 10 * pausedState.gnTickDelay ∧
    (nthread_has_500ms_passed pausedState 1000).value = some true ∧
    (nthread_has_500ms_passed pausedState 1000).value ≠ some false := by
  decide

/-- C11 (amended): in single-player mode, whenever the elapsed time
`now - last_tick` exceeds `10 * gnTickDelay` (both computed in the `int`
arithmetic of the code; they are the exact difference and product when these
fit into an `int`), `nthread_has_500ms_passed` sets `last_tick` to `now` and
returns `true`: it reports one tick. -/
theorem C11_long_gap_single_tick (s : NState) (ticks : Nat)
    (hsp : s.gbIsMultiplayer = false) :
    (toInt32 (toInt32 ticks - s.last_tick) > toInt32 (s.gnTickDelay * 10) →
      (nthread_has_500ms_passed s ticks).value = some true ∧
      (nthread_has_500ms_passed s ticks).state = { s with last_tick := toInt32 ticks }) ∧
    (-2147483648 ≤ toInt32 ticks - s.last_tick ∧ toInt32 ticks - s.last_tick < 2147483648 →
      -2147483648 ≤ s.gnTickDelay * 10 ∧ s.gnTickDelay * 10 < 2147483648 →
      toInt32 ticks - s.last_tick > 10 * s.gnTickDelay →
      (nthread_has_500ms_passed s ticks).value = some true ∧
      (nthread_has_500ms_passed s ticks).state = { s with last_tick := toInt32 ticks }) := by
  have hA : toInt32 (toInt32 ticks - s.last_tick) > toInt32 (s.gnTickDelay * 10) →
      (nthread_has_500ms_passed s ticks).value = some true ∧
      (nthread_has_500ms_passed s ticks).state = { s with last_tick := toInt32 ticks } := by
    intro h
    simp [nthread_has_500ms_passed, hsp, h]
  refine ⟨hA, fun h1 h2 h3 => hA ?_⟩
  rw [toInt32_of_range _ h1.1 h1.2, toInt32_of_range _ h2.1 h2.2]
  omega

/-- C11 (amended) one second after the last tick with a tick delay of 50. -/
theorem C11_long_gap_single_tick_witness :
    pausedState.gbIsMultiplayer = false ∧
    toInt32 (toInt32 (1000 : Nat) - pausedState.last_tick)
      > toInt32 (pausedState.gnTickDelay * 10) ∧
    (nthread_has_500ms_passed pausedState 1000).value = some true ∧
    (nthread_has_500ms_passed pausedState 1000).state
      = { pausedState with last_tick := toInt32 (1000 : Nat) } :=
  ⟨rfl, by decide, (C11_long_gap_single_tick pausedState 1000 rfl).1 (by decide)⟩

/-- C12: with `now`, the elapsed time `now - last_tick` and `10 * gnTickDelay` as
the code computes them in `int` arithmetic: in single-player mode with an
elapsed time above `10 * gnTickDelay`, `nthread_has_500ms_passed` sets
`last_tick` to `now` and changes nothing else, so that the elapsed time is 0
for a call at the same tick count; in every other case it leaves all globals
unchanged and returns `true` exactly when the elapsed time is `>= 0`. The
elapsed time and the product are the exact ones whenever those fit into an
`int`. -/
theorem C12_baseline_frame (s : NState) (ticks : Nat) :
    (s.gbIsMultiplayer = false ∧
        toInt32 (toInt32 ticks - s.last_tick) > toInt32 (s.gnTickDelay * 10) →
      (nthread_has_500ms_passed s ticks).state = { s with last_tick := toInt32 ticks } ∧
      toInt32 (toInt32 ticks - (nthread_has_500ms_passed s ticks).state.last_tick) = 0) ∧
    (¬ (s.gbIsMultiplayer = false ∧
        toInt32 (toInt32 ticks - s.last_tick) > toInt32 (s.gnTickDelay * 10)) →
      (nthread_has_500ms_passed s ticks).state = s ∧
      ((nthread_has_500ms_passed s ticks).value = some true ↔
        toInt32 (toInt32 ticks - s.last_tick) ≥ 0) ∧
      ((nthread_has_500ms_passed s ticks).value = some false ↔
        ¬ toInt32 (toInt32 ticks - s.last_tick) ≥ 0)) ∧
    (-2147483648 ≤ toInt32 ticks - s.last_tick ∧ toInt32 ticks - s.last_tick < 2147483648 →
      toInt32 (toInt32 ticks - s.last_tick) = toInt32 ticks - s.last_tick) ∧
    (-2147483648 ≤ s.gnTickDelay * 10 ∧ s.gnTickDelay * 10 < 2147483648 →
      toInt32 (s.gnTickDelay * 10) = 10 * s.gnTickDelay) := by
  refine ⟨fun h => ?_, fun h => ?_, fun h => toInt32_of_range _ h.1 h.2, fun h => ?_⟩
  · have hst : (nthread_has_500ms_passed s ticks).state
        = { s with last_tick := toInt32 ticks } := by
      simp [nthread_has_500ms_passed, h.1, h.2]
    refine ⟨hst, ?_⟩
    rw [hst]
    simp only [sub_self]
    rfl
  · have hv : nthread_has_500ms_passed s ticks
        = { state := s, trace := [],
            value := some (decide (toInt32 (toInt32 ticks - s.last_tick) ≥ 0)) } := by
      unfold nthread_has_500ms_passed
      simp only
      rw [if_neg h]
    rw [hv]
    refine ⟨rfl, ?_, ?_⟩
    · simp
    · simp
  · rw [toInt32_of_range _ h.1 h.2]
    ring

/-- C12 in multiplayer mode, 20 ms before the next tick is due. -/
theorem C12_baseline_frame_witness :
    ¬ (multiplayerState.gbIsMultiplayer = false ∧
        toInt32 (toInt32 (1000 : Nat) - multiplayerState.last_tick)
          > toInt32 (multiplayerState.gnTickDelay * 10)) ∧
    (nthread_has_500ms_passed multiplayerState 1000).state = multiplayerState ∧
    ((nthread_has_500ms_passed multiplayerState 1000).value = some true ↔
      toInt32 (toInt32 (1000 : Nat) - multiplayerState.last_tick) ≥ 0) ∧
    ((nthread_has_500ms_passed multiplayerState 1000).value = some false ↔
      ¬ toInt32 (toInt32 (1000 : Nat) - multiplayerState.last_tick) ≥ 0) :=
  ⟨by decide, (C12_baseline_frame multiplayerState 1000).2.1 (by decide)⟩

/-! ## C13 and C14: `nthread_UpdateProgressToNextGameTick` -/

/-- The value stored by `nthread_UpdateProgressToNextGameTick` when the game is
running: 1 when the deadline has passed, else the quotient of line 243. -/
theorem update_progress_running (s : NState) (env : ProgressEnv)
    (hrun : env.gbRunGame = true ∧ env.PauseMode = 0 ∧
      ¬ (s.gbIsMultiplayer = false ∧ env.gmenu_is_active = true) ∧
      env.gbProcessPlayers = true) :
    nthread_UpdateProgressToNextGameTick s env =
      { s with gfProgressToNextGameTick :=
          if toInt32 (s.last_tick - toInt32 env.ticks) ≤ 0 then 1
          else ((toInt32 (s.gnTickDelay - toInt32 (s.last_tick - toInt32 env.ticks)) : Int)
            : Rat) / (s.gnTickDelay : Rat) } := by
  obtain ⟨h1, h2, h3, h4⟩ := hrun
  have hc : ¬ (env.gbRunGame = false ∨ env.PauseMode ≠ 0 ∨
      (s.gbIsMultiplayer = false ∧ env.gmenu_is_active = true) ∨
      env.gbProcessPlayers = false) := by
    rw [h1, h2, h4]
    simp [h3]
  unfold nthread_UpdateProgressToNextGameTick
  rw [if_neg hc]
  simp only
  split
  · rfl
  · split <;> split <;> rfl

/-- C13 at a failing input: with `gnTickDelay = 50`, `last_tick = 1100` and the
tick count 1000, in a running game, `nthread_UpdateProgressToNextGameTick`
stores `(50 - 100) / 50 = -1` in `gfProgressToNextGameTick`, a value outside
`[0, 1]`: the clamp of lines 244-247 is overwritten by line 248. -/
theorem C13_progress_below_zero :
    0 < progressLateState.gnTickDelay ∧
    (nthread_UpdateProgressToNextGameTick progressLateState
      progressEnvRunning).gfProgressToNextGameTick = -1 ∧
    ¬ (0 ≤ (nthread_UpdateProgressToNextGameTick progressLateState
      progressEnvRunning).gfProgressToNextGameTick) := by
  have h : (nthread_UpdateProgressToNextGameTick progressLateState
      progressEnvRunning).gfProgressToNextGameTick = -1 := by
    rw [update_progress_running _ _ (by decide)]
    have e1 : toInt32 (progressLateState.last_tick - toInt32 progressEnvRunning.ticks)
        = 100 := by decide
    have e2 : toInt32 (progressLateState.gnTickDelay - 100) = -50 := by decide
    have e3 : progressLateState.gnTickDelay = 50 := rfl
    simp only
    rw [e1, e2, e3]
    norm_num
  refine ⟨by decide, h, ?_⟩
  rw [h]
  norm_num

/-- The thread start of lines 180-189 leaves the countdowns, the sync flag and
`last_tick` as they are. -/
theorem nthread_start_thread_countdowns (s : NState) (env : StartEnv) :
    (nthread_start_thread s env).state.sgbPacketCountdown = s.sgbPacketCountdown ∧
    (nthread_start_thread s env).state.sgbSyncCountdown = s.sgbSyncCountdown ∧
    (nthread_start_thread s env).state.sgbTicsOutOfSync = s.sgbTicsOutOfSync ∧
    (nthread_start_thread s env).state.last_tick = s.last_tick := by
  unfold nthread_start_thread
  split
  · split
    · exact ⟨rfl, rfl, rfl, rfl⟩
    · exact ⟨rfl, rfl, rfl, rfl⟩
  · exact ⟨rfl, rfl, rfl, rfl⟩

/-- The globals that `nthread_start` sets up before the pacing derivation. -/
theorem nthread_start_countdowns (MAX_PLRS fuel : Nat) (s : NState) (env : StartEnv)
    (b : Bool) (r : Run Unit) (h : nthread_start MAX_PLRS fuel s env b = Except.ok r) :
    r.state.sgbPacketCountdown = 1 ∧ r.state.sgbSyncCountdown = 1 ∧
    r.state.sgbTicsOutOfSync = true ∧ r.state.last_tick = toInt32 env.ticks := by
  unfold nthread_start at h
  simp only [nthread_start_pacing_eq] at h
  by_cases hp : start_players MAX_PLRS env.caps = 0
  · simp [hp] at h
  · simp only [hp, if_false] at h
    cases hg : grow_loop fuel (start_msg_size MAX_PLRS env.caps) (start_rate env.caps) with
    | none => simp [hg] at h
    | some p =>
      simp only [hg] at h
      cases h
      simp only
      obtain ⟨h1, h2, h3, h4⟩ := nthread_start_thread_countdowns
        { (if b then nthread_set_turn_upper_bit
              { s with last_tick := toInt32 env.ticks, sgbPacketCountdown := 1,
                       sgbSyncCountdown := 1, sgbTicsOutOfSync := true }
            else { s with last_tick := toInt32 env.ticks, sgbPacketCountdown := 1,
                          sgbSyncCountdown := 1, sgbTicsOutOfSync := true,
                          turn_upper_bit := 0 }) with
          gdwTurnsInTransit :=
            if env.caps.defaultturnsintransit = 0 then 1 else env.caps.defaultturnsintransit,
          sgbNetUpdateRate := p.2,
          gdwDeltaBytesSec := env.caps.bytessec / 4,
          gdwLargestMsgSize := start_largest env.caps,
          gdwNormalMsgSize :=
            if p.1 > start_largest env.caps then start_largest env.caps else p.1 } env
      refine ⟨h1.trans ?_, h2.trans ?_, h3.trans ?_, h4.trans ?_⟩ <;> cases b <;> rfl

/-- One poll keeps the countdowns within their bounds. -/
theorem recv_turns_invariant (codes : StormCodes) (s : NState) (env : RecvEnv)
    (pfSendAsync : Option Bool)
    (hr : 1 ≤ s.sgbNetUpdateRate ∧ s.sgbNetUpdateRate ≤ 127)
    (hp : 1 ≤ s.sgbPacketCountdown ∧ s.sgbPacketCountdown ≤ (s.sgbNetUpdateRate : Int))
    (hj : 1 ≤ s.sgbSyncCountdown ∧ s.sgbSyncCountdown ≤ 4)
    (hv : (nthread_recv_turns codes s env pfSendAsync).value ≠ none) :
    (nthread_recv_turns codes s env pfSendAsync).state.sgbNetUpdateRate
      = s.sgbNetUpdateRate ∧
    1 ≤ (nthread_recv_turns codes s env pfSendAsync).state.sgbPacketCountdown ∧
    (nthread_recv_turns codes s env pfSendAsync).state.sgbPacketCountdown
      ≤ (s.sgbNetUpdateRate : Int) ∧
    1 ≤ (nthread_recv_turns codes s env pfSendAsync).state.sgbSyncCountdown ∧
    (nthread_recv_turns codes s env pfSendAsync).state.sgbSyncCountdown ≤ 4 := by
  have hrate : toChar (s.sgbNetUpdateRate : Int) = (s.sgbNetUpdateRate : Int) := by
    unfold toChar; omega
  by_cases h1 : toChar (s.sgbPacketCountdown - 1) > 0
  · have e1 : toChar (s.sgbPacketCountdown - 1) = s.sgbPacketCountdown - 1 := by
      unfold toChar; omega
    simp only [nthread_recv_turns, h1, if_true]
    rw [e1]
    exact ⟨trivial, by omega, by omega, hj.1, hj.2⟩
  · have hp1 : s.sgbPacketCountdown = 1 := by
      unfold toChar at h1; omega
    have e2 : toChar (s.sgbSyncCountdown - 1) = s.sgbSyncCountdown - 1 := by
      unfold toChar; omega
    by_cases h2 : toChar (s.sgbSyncCountdown - 1) = 0
    · cases h3 : env.receiveOk
      · by_cases h4 : env.lastError = codes.STORM_ERROR_NO_MESSAGES_WAITING
        · simp [nthread_recv_turns, h1, h2, h3, h4]
          omega
        · by_cases h5 : env.lastError = codes.STORM_ERROR_INVALID_PLAYER
          · have h4' : ¬ codes.STORM_ERROR_INVALID_PLAYER
                = codes.STORM_ERROR_NO_MESSAGES_WAITING := h5 ▸ h4
            simp [nthread_recv_turns, h1, h2, h3, h4', h5, nthread_terminate_game]
            omega
          · by_cases h6 : env.lastError ≠ codes.STORM_ERROR_GAME_TERMINATED ∧
                env.lastError ≠ codes.STORM_ERROR_NOT_IN_GAME
            · simp [nthread_recv_turns, h1, h2, h3, h4, h5, h6, nthread_terminate_game,
                app_fatal] at hv
            · simp [nthread_recv_turns, h1, h2, h3, h4, h5, h6, nthread_terminate_game]
              omega
      · simp only [nthread_recv_turns, h1, if_false, h2, ne_eq, not_true_eq_false, h3,
          Bool.not_true, Bool.false_eq_true]
        rw [hrate]
        exact ⟨trivial, by omega, le_refl _, by decide, by decide⟩
    · have h2' : toChar (s.sgbSyncCountdown - 1) ≠ 0 := h2
      simp only [nthread_recv_turns, h1, if_false, h2', ne_eq, not_false_eq_true, if_true]
      rw [hrate, e2]
      exact ⟨trivial, by omega, le_refl _, by omega, by omega⟩

/-- The value of `last_tick` after one poll, on each path. -/
theorem recv_turns_last_tick (codes : StormCodes) (s : NState) (env : RecvEnv)
    (pfSendAsync : Option Bool) :
    (∀ a, (nthread_recv_turns codes s env pfSendAsync).value = some (false, a) →
      (nthread_recv_turns codes s env pfSendAsync).state.last_tick = s.last_tick) ∧
    (∀ a, (nthread_recv_turns codes s env pfSendAsync).value = some (true, a) →
      (nthread_recv_turns codes s env pfSendAsync).state.last_tick
        = toInt32 (s.last_tick + s.gnTickDelay) ∨
      (Event.SNetReceiveTurns ∈ (nthread_recv_turns codes s env pfSendAsync).trace ∧
        env.receiveOk = true ∧ s.sgbTicsOutOfSync = false)) := by
  by_cases h1 : toChar (s.sgbPacketCountdown - 1) > 0
  · simp [nthread_recv_turns, h1]
  · by_cases h2 : toChar (s.sgbSyncCountdown - 1) = 0
    · cases h3 : env.receiveOk
      · by_cases h4 : env.lastError = codes.STORM_ERROR_NO_MESSAGES_WAITING
        · simp [nthread_recv_turns, h1, h2, h3, h4]
        · by_cases h5 : env.lastError = codes.STORM_ERROR_INVALID_PLAYER
          · have h4' : ¬ codes.STORM_ERROR_INVALID_PLAYER
                = codes.STORM_ERROR_NO_MESSAGES_WAITING := h5 ▸ h4
            simp [nthread_recv_turns, h1, h2, h3, h4', h5, nthread_terminate_game]
          · by_cases h6 : env.lastError ≠ codes.STORM_ERROR_GAME_TERMINATED ∧
                env.lastError ≠ codes.STORM_ERROR_NOT_IN_GAME
            · simp [nthread_recv_turns, h1, h2, h3, h4, h5, h6, nthread_terminate_game,
                app_fatal]
            · simp [nthread_recv_turns, h1, h2, h3, h4, h5, h6, nthread_terminate_game]
      · cases h7 : s.sgbTicsOutOfSync <;>
          simp [nthread_recv_turns, h1, h2, h3, h7]
    · simp [nthread_recv_turns, h1, h2]

/-- A poll whose receive succeeds. -/
theorem recv_turns_success_run (codes : StormCodes) (s : NState) (env : RecvEnv)
    (pfSendAsync : Option Bool) (hok : env.receiveOk = true)
    (hrecv : Event.SNetReceiveTurns ∈ (nthread_recv_turns codes s env pfSendAsync).trace) :
    nthread_recv_turns codes s env pfSendAsync =
      { state := { s with sgbTicsOutOfSync := true, sgbSyncCountdown := 4,
                          sgbPacketCountdown := toChar s.sgbNetUpdateRate,
                          last_tick := toInt32
                            ((if s.sgbTicsOutOfSync = false then toInt32 env.ticks
                              else s.last_tick) + s.gnTickDelay) },
        trace := [Event.SNetReceiveTurns, Event.multi_msg_countdown],
        value := some (true, (pfSendAsync.map (fun _ => false)).map (fun _ => true)) } := by
  by_cases h1 : toChar (s.sgbPacketCountdown - 1) > 0
  · simp [nthread_recv_turns, h1] at hrecv
  · by_cases h2 : toChar (s.sgbSyncCountdown - 1) = 0
    · cases h7 : s.sgbTicsOutOfSync <;>
        simp [nthread_recv_turns, h1, h2, hok, h7]
    · simp [nthread_recv_turns, h1, h2] at hrecv

/-- A poll whose receive fails and that returns has cleared `sgbTicsOutOfSync`. -/
theorem recv_turns_failure_flag (codes : StormCodes) (s : NState) (env : RecvEnv)
    (pfSendAsync : Option Bool) (a : Option Bool)
    (hv : (nthread_recv_turns codes s env pfSendAsync).value = some (false, a)) :
    (nthread_recv_turns codes s env pfSendAsync).state.sgbTicsOutOfSync = false ∧
    env.receiveOk = false ∧
    Event.SNetReceiveTurns ∈ (nthread_recv_turns codes s env pfSendAsync).trace := by
  by_cases h1 : toChar (s.sgbPacketCountdown - 1) > 0
  · simp [nthread_recv_turns, h1] at hv
  · by_cases h2 : toChar (s.sgbSyncCountdown - 1) = 0
    · cases h3 : env.receiveOk
      · by_cases h4 : env.lastError = codes.STORM_ERROR_NO_MESSAGES_WAITING
        · simp [nthread_recv_turns, h1, h2, h3, h4]
        · by_cases h5 : env.lastError = codes.STORM_ERROR_INVALID_PLAYER
          · have h4' : ¬ codes.STORM_ERROR_INVALID_PLAYER
                = codes.STORM_ERROR_NO_MESSAGES_WAITING := h5 ▸ h4
            simp [nthread_recv_turns, h1, h2, h3, h4', h5, nthread_terminate_game]
          · by_cases h6 : env.lastError ≠ codes.STORM_ERROR_GAME_TERMINATED ∧
                env.lastError ≠ codes.STORM_ERROR_NOT_IN_GAME
            · simp [nthread_recv_turns, h1, h2, h3, h4, h5, h6, nthread_terminate_game,
                app_fatal] at hv
            · simp [nthread_recv_turns, h1, h2, h3, h4, h5, h6, nthread_terminate_game]
      · cases h7 : s.sgbTicsOutOfSync <;>
          simp [nthread_recv_turns, h1, h2, h3, h7] at hv
    · simp [nthread_recv_turns, h1, h2] at hv

/-- Any number of polls keeps the countdowns within their bounds. -/
theorem recv_polls_invariant (codes : StormCodes) (polls : List (RecvEnv × Option Bool)) :
    ∀ (s : NState), (1 ≤ s.sgbNetUpdateRate ∧ s.sgbNetUpdateRate ≤ 127) →
      (1 ≤ s.sgbPacketCountdown ∧ s.sgbPacketCountdown ≤ (s.sgbNetUpdateRate : Int)) →
      (1 ≤ s.sgbSyncCountdown ∧ s.sgbSyncCountdown ≤ 4) →
      ∀ run ∈ recv_polls codes s polls, run.value ≠ none →
        run.state.sgbNetUpdateRate = s.sgbNetUpdateRate ∧
        1 ≤ run.state.sgbPacketCountdown ∧
        run.state.sgbPacketCountdown ≤ (s.sgbNetUpdateRate : Int) ∧
        1 ≤ run.state.sgbSyncCountdown ∧ run.state.sgbSyncCountdown ≤ 4 := by
  induction polls with
  | nil =>
    intro s _ _ _ run hmem
    simp [recv_polls] at hmem
  | cons q qs ih =>
    intro s hr hp hj run hmem hv
    simp only [recv_polls, List.mem_cons] at hmem
    rcases hmem with h | h
    · rw [h] at hv ⊢
      exact recv_turns_invariant codes s q.1 q.2 hr hp hj hv
    · cases hq : (nthread_recv_turns codes s q.1 q.2).value with
      | none => simp [hq] at h
      | some v =>
        simp only [hq] at h
        obtain ⟨g1, g2, g3, g4, g5⟩ := recv_turns_invariant codes s q.1 q.2 hr hp hj
          (by rw [hq]; simp)
        obtain ⟨k1, k2, k3, k4, k5⟩ := ih (nthread_recv_turns codes s q.1 q.2).state
          (by rw [g1]; exact hr) ⟨g2, by rw [g1]; exact g3⟩ ⟨g4, g5⟩ run h hv
        rw [g1] at k1 k3
        exact ⟨k1, k2, k3, k4, k5⟩

/-- C16: for every poll of `nthread_recv_turns` that does not realign the
baseline (it is not a successful receive with `sgbTicsOutOfSync` false): when
the poll returns `true`, `last_tick` afterwards is the `int` sum
`last_tick + gnTickDelay`, which is the exact sum whenever that fits into an
`int`; when the poll returns `false`, `last_tick` is unchanged. -/
theorem C16_last_tick_per_tick (codes : StormCodes) (s : NState) (env : RecvEnv)
    (pfSendAsync : Option Bool)
    (hno : ¬ (Event.SNetReceiveTurns ∈ (nthread_recv_turns codes s env pfSendAsync).trace ∧
      env.receiveOk = true ∧ s.sgbTicsOutOfSync = false)) :
    (∀ a, (nthread_recv_turns codes s env pfSendAsync).value = some (true, a) →
      (nthread_recv_turns codes s env pfSendAsync).state.last_tick
        = toInt32 (s.last_tick + s.gnTickDelay) ∧
      (-2147483648 ≤ s.last_tick + s.gnTickDelay ∧ s.last_tick + s.gnTickDelay < 2147483648 →
        (nthread_recv_turns codes s env pfSendAsync).state.last_tick
          = s.last_tick + s.gnTickDelay)) ∧
    (∀ a, (nthread_recv_turns codes s env pfSendAsync).value = some (false, a) →
      (nthread_recv_turns codes s env pfSendAsync).state.last_tick = s.last_tick) := by
  obtain ⟨hf, ht⟩ := recv_turns_last_tick codes s env pfSendAsync
  refine ⟨fun a ha => ?_, hf⟩
  rcases ht a ha with h | h
  · exact ⟨h, fun hrange => by rw [h, toInt32_of_range _ hrange.1 hrange.2]⟩
  · exact absurd h hno

/-- C16 on a poll of the cheap path: `last_tick` goes from 1000 to 1050. -/
theorem C16_last_tick_per_tick_witness :
    ¬ (Event.SNetReceiveTurns ∈ (nthread_recv_turns stormCodes pollQuietState recvEnvOk
        none).trace ∧
      recvEnvOk.receiveOk = true ∧ pollQuietState.sgbTicsOutOfSync = false) ∧
    (nthread_recv_turns stormCodes pollQuietState recvEnvOk none).value
      = some (true, none) ∧
    (-2147483648 ≤ pollQuietState.last_tick + pollQuietState.gnTickDelay ∧
      pollQuietState.last_tick + pollQuietState.gnTickDelay < 2147483648) ∧
    (nthread_recv_turns stormCodes pollQuietState recvEnvOk none).state.last_tick
      = toInt32 (pollQuietState.last_tick + pollQuietState.gnTickDelay) ∧
    (nthread_recv_turns stormCodes pollQuietState recvEnvOk none).state.last_tick
      = pollQuietState.last_tick + pollQuietState.gnTickDelay :=
  ⟨by decide, by decide, by decide,
    ((C16_last_tick_per_tick stormCodes pollQuietState recvEnvOk none (by decide)).1 none
      (by decide)).1,
    ((C16_last_tick_per_tick stormCodes pollQuietState recvEnvOk none (by decide)).1 none
      (by decide)).2 (by decide)⟩

/-- C17: on a poll of `nthread_recv_turns` whose network receive succeeds: if
`sgbTicsOutOfSync` is false, `last_tick` ends as the `int` sum
`now + gnTickDelay`; if it is true, `last_tick` is not reset and ends as
`last_tick + gnTickDelay`. In both cases `sgbSyncCountdown` becomes 4,
`multi_msg_countdown` is called exactly once, the poll returns `true` and the
flag is true afterwards. The flag is true after `nthread_start` and is false
after every poll whose receive failed and that returned. -/
theorem C17_successful_receive (codes : StormCodes) (s : NState) (env : RecvEnv)
    (pfSendAsync : Option Bool) (hok : env.receiveOk = true)
    (hrecv : Event.SNetReceiveTurns ∈ (nthread_recv_turns codes s env pfSendAsync).trace) :
    (s.sgbTicsOutOfSync = false →
      (nthread_recv_turns codes s env pfSendAsync).state.last_tick
        = toInt32 (toInt32 env.ticks + s.gnTickDelay)) ∧
    (s.sgbTicsOutOfSync = true →
      (nthread_recv_turns codes s env pfSendAsync).state.last_tick
        = toInt32 (s.last_tick + s.gnTickDelay)) ∧
    (nthread_recv_turns codes s env pfSendAsync).state.sgbSyncCountdown = 4 ∧
    (nthread_recv_turns codes s env pfSendAsync).trace.count Event.multi_msg_countdown = 1 ∧
    (∃ a, (nthread_recv_turns codes s env pfSendAsync).value = some (true, a)) ∧
    (nthread_recv_turns codes s env pfSendAsync).state.sgbTicsOutOfSync = true ∧
    (∀ (MAX_PLRS fuel : Nat) (s0 : NState) (senv : StartEnv) (b : Bool) (r0 : Run Unit),
      nthread_start MAX_PLRS fuel s0 senv b = Except.ok r0 →
      r0.state.sgbTicsOutOfSync = true) ∧
    (∀ (s1 : NState) (env1 : RecvEnv) (pf1 a : Option Bool),
      (nthread_recv_turns codes s1 env1 pf1).value = some (false, a) →
      (nthread_recv_turns codes s1 env1 pf1).state.sgbTicsOutOfSync = false) := by
  have hrun := recv_turns_success_run codes s env pfSendAsync hok hrecv
  refine ⟨fun h => ?_, fun h => ?_, ?_, ?_, ?_, ?_, ?_, ?_⟩
  · rw [hrun]
    simp [h]
  · rw [hrun]
    simp [h]
  · rw [hrun]
  · rw [hrun]
    show [Event.SNetReceiveTurns, Event.multi_msg_countdown].count
      Event.multi_msg_countdown = 1
    decide
  · rw [hrun]
    exact ⟨_, rfl⟩
  · rw [hrun]
  · intro MAX_PLRS fuel s0 senv b r0 h
    exact (nthread_start_countdowns _ _ _ _ _ _ h).2.2.1
  · intro s1 env1 pf1 a h
    exact (recv_turns_failure_flag codes s1 env1 pf1 a h).1

/-- C17 on the first successful receive after a failed one, at tick 1000. -/
theorem C17_successful_receive_witness :
    recvEnvOk.receiveOk = true ∧
    Event.SNetReceiveTurns ∈ (nthread_recv_turns stormCodes outOfSyncState recvEnvOk
      none).trace ∧
    outOfSyncState.sgbTicsOutOfSync = false ∧
    (nthread_recv_turns stormCodes outOfSyncState recvEnvOk none).state.last_tick
      = toInt32 (toInt32 recvEnvOk.ticks + outOfSyncState.gnTickDelay) ∧
    (nthread_recv_turns stormCodes outOfSyncState recvEnvOk none).state.sgbSyncCountdown
      = 4 ∧
    (nthread_recv_turns stormCodes outOfSyncState recvEnvOk none).trace.count
      Event.multi_msg_countdown = 1 :=
  ⟨rfl, by decide, rfl,
    (C17_successful_receive stormCodes outOfSyncState recvEnvOk none rfl (by decide)).1 rfl,
    (C17_successful_receive stormCodes outOfSyncState recvEnvOk none rfl (by decide)).2.2.1,
    (C17_successful_receive stormCodes outOfSyncState recvEnvOk none rfl
      (by decide)).2.2.2.1⟩

/-- C19: when `nthread_start` has completed with `1 <= sgbNetUpdateRate <= 127`,
then in the state it leaves and after every poll of any sequence of
`nthread_recv_turns` polls that returns (whatever the transport answers),
`1 <= sgbPacketCountdown <= max(1, sgbNetUpdateRate)` and
`1 <= sgbSyncCountdown <= 4`, and `sgbNetUpdateRate` is unchanged. -/
theorem C19_countdown_invariant (codes : StormCodes) (MAX_PLRS fuel : Nat) (s : NState)
    (env : StartEnv) (b : Bool) (r0 : Run Unit) (polls : List (RecvEnv × Option Bool))
    (h0 : nthread_start MAX_PLRS fuel s env b = Except.ok r0)
    (hr : 1 ≤ r0.state.sgbNetUpdateRate ∧ r0.state.sgbNetUpdateRate ≤ 127) :
    (1 ≤ r0.state.sgbPacketCountdown ∧
      r0.state.sgbPacketCountdown ≤ max 1 (r0.state.sgbNetUpdateRate : Int) ∧
      1 ≤ r0.state.sgbSyncCountdown ∧ r0.state.sgbSyncCountdown ≤ 4) ∧
    ∀ run ∈ recv_polls codes r0.state polls, run.value ≠ none →
      run.state.sgbNetUpdateRate = r0.state.sgbNetUpdateRate ∧
      1 ≤ run.state.sgbPacketCountdown ∧
      run.state.sgbPacketCountdown ≤ max 1 (run.state.sgbNetUpdateRate : Int) ∧
      1 ≤ run.state.sgbSyncCountdown ∧ run.state.sgbSyncCountdown ≤ 4 := by
  obtain ⟨h1, h2, -, -⟩ := nthread_start_countdowns _ _ _ _ _ _ h0
  have hmax : max 1 (r0.state.sgbNetUpdateRate : Int) = (r0.state.sgbNetUpdateRate : Int) := by
    omega
  refine ⟨⟨by omega, by omega, by omega, by omega⟩, fun run hmem hv => ?_⟩
  obtain ⟨g1, g2, g3, g4, g5⟩ := recv_polls_invariant codes polls r0.state hr
    ⟨by omega, by omega⟩ ⟨by omega, by omega⟩ run hmem hv
  rw [g1, hmax]
  exact ⟨rfl, g2, g3, g4, g5⟩

/-- C19 for the pacing scenario (update rate 4) at the start of the session. -/
theorem C19_countdown_invariant_witness :
    nthread_start 4 8 { } startEnvExample true = Except.ok startedExample ∧
    (1 ≤ startedExample.state.sgbNetUpdateRate ∧
      startedExample.state.sgbNetUpdateRate ≤ 127) ∧
    (1 ≤ startedExample.state.sgbPacketCountdown ∧
      startedExample.state.sgbPacketCountdown
        ≤ max 1 (startedExample.state.sgbNetUpdateRate : Int) ∧
      1 ≤ startedExample.state.sgbSyncCountdown ∧
      startedExample.state.sgbSyncCountdown ≤ 4) ∧
    ∀ run ∈ recv_polls stormCodes startedExample.state
        [(recvEnvNoMessages, none), (recvEnvOk, none), (recvEnvOk, none)],
      run.value ≠ none →
      run.state.sgbNetUpdateRate = startedExample.state.sgbNetUpdateRate ∧
      1 ≤ run.state.sgbPacketCountdown ∧
      run.state.sgbPacketCountdown ≤ max 1 (run.state.sgbNetUpdateRate : Int) ∧
      1 ≤ run.state.sgbSyncCountdown ∧ run.state.sgbSyncCountdown ≤ 4 :=
  ⟨rfl, by decide,
    C19_countdown_invariant stormCodes 4 8 { } startEnvExample true startedExample
      [(recvEnvNoMessages, none), (recvEnvOk, none), (recvEnvOk, none)] rfl (by decide)⟩

/-! ## C18: the critical section in `nthread_cleanup` -/

/-- C18 as stated fails: after `nthread_ignore_mutex(true)` (the caller has
released `sgMemCrit` and `sgbThreadIsRunning` is true), `nthread_cleanup` called
by a thread other than the background thread makes the single call
`SDL_WaitThread`: it does not call `sgMemCrit.Enter()`, and the caller does
not hold the section while it waits. -/
theorem C18_cleanup_counterexample :
    (nthread_ignore_mutex threadHeldState true).state = threadFreeState ∧
    (nthread_ignore_mutex threadHeldState true).trace = [Event.sgMemCrit_Leave] ∧
    sgMemCrit_held true (nthread_ignore_mutex threadHeldState true).trace = false ∧
    threadFreeState.sghThread = true ∧ threadFreeState.glpNThreadId ≠ 1 ∧
    threadFreeState.sgbThreadIsRunning = true ∧
    (nthread_cleanup threadFreeState 1).trace = [Event.SDL_WaitThread] ∧
    Event.sgMemCrit_Enter ∉ (nthread_cleanup threadFreeState 1).trace ∧
    sgMemCrit_held false (nthread_cleanup threadFreeState 1).trace = false := by
  refine ⟨rfl, rfl, rfl, rfl, by decide, rfl, rfl, by decide, rfl⟩

/-- C18 (amended): when `nthread_cleanup` runs while a background thread exists
and the caller is not that thread, it never acquires `sgMemCrit`. If mutual
exclusion was disabled with `nthread_ignore_mutex(true)` (`sgbThreadIsRunning`
true, the section released by the caller), it makes no call on the section
before `SDL_WaitThread`; if mutual exclusion is enabled (`sgbThreadIsRunning`
false, the section held by the caller), it releases the section with
`sgMemCrit.Leave()` before `SDL_WaitThread`. In both cases the caller does not
hold the section while it waits. `nthread_ignore_mutex(true)` releases the
section and sets the flag, `nthread_ignore_mutex(false)` acquires it and
clears the flag. -/
theorem C18_cleanup_releases_section (s : NState) (caller : Nat)
    (hth : s.sghThread = true) (hcaller : s.glpNThreadId ≠ caller) :
    (s.sgbThreadIsRunning = true →
      (nthread_cleanup s caller).trace = [Event.SDL_WaitThread]) ∧
    (s.sgbThreadIsRunning = false →
      (nthread_cleanup s caller).trace = [Event.sgMemCrit_Leave, Event.SDL_WaitThread]) ∧
    Event.sgMemCrit_Enter ∉ (nthread_cleanup s caller).trace ∧
    sgMemCrit_held (!s.sgbThreadIsRunning) (nthread_cleanup s caller).trace = false ∧
    (∀ b : Bool,
      (nthread_ignore_mutex s b).state = { s with sgbThreadIsRunning := b } ∧
      (nthread_ignore_mutex s b).trace
        = [if b then Event.sgMemCrit_Leave else Event.sgMemCrit_Enter] ∧
      sgMemCrit_held (!s.sgbThreadIsRunning) (nthread_ignore_mutex s b).trace = !b) := by
  have hc : s.sghThread = true ∧ s.glpNThreadId ≠ caller := ⟨hth, hcaller⟩
  have htrace : (nthread_cleanup s caller).trace
      = (if !s.sgbThreadIsRunning then [Event.sgMemCrit_Leave] else [])
        ++ [Event.SDL_WaitThread] := by
    unfold nthread_cleanup
    rw [if_pos hc]
  refine ⟨fun h => ?_, fun h => ?_, ?_, ?_, fun b => ?_⟩
  · rw [htrace, h]; rfl
  · rw [htrace, h]; rfl
  · rw [htrace]
    cases s.sgbThreadIsRunning <;> decide
  · rw [htrace]
    cases s.sgbThreadIsRunning <;> rfl
  · have hrun : nthread_ignore_mutex s b
        = { state := { s with sgbThreadIsRunning := b },
            trace := [if b then Event.sgMemCrit_Leave else Event.sgMemCrit_Enter],
            value := some () } := by
      unfold nthread_ignore_mutex
      rw [if_pos hth]
    rw [hrun]
    refine ⟨rfl, rfl, ?_⟩
    cases b <;> rfl

/-- C18 (amended) for a caller that holds the section (mutual exclusion
enabled): the section is released before the wait. -/
theorem C18_cleanup_releases_section_witness :
    threadHeldState.sghThread = true ∧ threadHeldState.glpNThreadId ≠ 1 ∧
    threadHeldState.sgbThreadIsRunning = false ∧
    (nthread_cleanup threadHeldState 1).trace
      = [Event.sgMemCrit_Leave, Event.SDL_WaitThread] ∧
    Event.sgMemCrit_Enter ∉ (nthread_cleanup threadHeldState 1).trace :=
  ⟨rfl, by decide, rfl,
    (C18_cleanup_releases_section threadHeldState 1 rfl (by decide)).2.1 rfl,
    (C18_cleanup_releases_section threadHeldState 1 rfl (by decide)).2.2.1⟩

/-! ## C20: subscripts of the translation tables -/

/-- Every rule that `GetLocalPluralId` can hold returns 0, 1 or 2, so with three
or more maps in `translation` every subscript of `LanguagePluralTranslate` is
in range. -/
theorem plural_subscripts_below_three (st : LangState) (count : Int) (found : Bool)
    (hrule : st.GetLocalPluralId = plural_english ∨ st.GetLocalPluralId = plural_chinese ∨
      st.GetLocalPluralId = plural_french ∨ st.GetLocalPluralId = plural_russian ∨
      st.GetLocalPluralId = plural_polish) :
    ∀ i ∈ LanguagePluralTranslate_subscripts st count found, 0 ≤ i ∧ i < 3 := by
  have hn : 0 ≤ st.GetLocalPluralId count ∧ st.GetLocalPluralId count < 3 := by
    rcases hrule with h | h | h | h | h <;> rw [h]
    · unfold plural_english; split <;> decide
    · unfold plural_chinese; decide
    · unfold plural_french; split <;> decide
    · unfold plural_russian; split
      · decide
      · split <;> decide
    · unfold plural_polish; split
      · decide
      · split <;> decide
  intro i hi
  unfold LanguagePluralTranslate_subscripts at hi
  simp only at hi
  split at hi
  · simp only [List.mem_singleton] at hi
    rw [hi]; exact hn
  · split at hi
    · simp only [List.mem_cons, List.mem_singleton, List.not_mem_nil, or_false] at hi
      rcases hi with h | h
      · rw [h]; exact hn
      · rw [h]; decide
    · simp only [List.mem_cons, List.mem_singleton, List.not_mem_nil, or_false] at hi
      rcases hi with h | h
      · rw [h]; exact hn
      · rw [h]; decide

end devilution
